import Mathlib

/-!
Prometheus receiver configuration: validation and unmarshalling.

A shallow embedding of `receiver/prometheusreceiver/config.go` and theorems about it.

Conventions of the embedding.

* A Go `error` value is a `GoError` (a message and, for `%w`, the wrapped error); a function
  returning `error` returns `Option GoError`, where `none` is Go's `nil`.
* A Go `string` is a Lean `String`.  Lean strings are sequences of Unicode scalar values, so
  the branches of the Go library that deal with invalid UTF-8 have no counterpart here.
* The local filesystem and the file parsers are the fields of a `World`; every theorem
  quantifies over all worlds unless it fixes one.
* `fmt.Errorf` verbs: `%s` and `%v` on a string insert it unchanged, `%q` inserts
  `strconv.Quote` of it, `%w` inserts the message of the wrapped error and records it.
-/

namespace Prometheusreceiver

/-! ## Go errors -/

/-- A Go error value: `errors.New msg`, or `fmt.Errorf` with a `%w` verb around `inner`. -/
inductive GoError where
  | new (msg : String) : GoError
  | wrap (msg : String) (inner : GoError) : GoError
  deriving DecidableEq

/-- The `Error()` method. -/
def GoError.msg : GoError → String
  | .new m => m
  | .wrap m _ => m

/-- The relation `errors.Is err target`: `target` occurs in the unwrap chain of `err`. -/
def GoError.wraps : GoError → GoError → Bool
  | .new m, target => decide (GoError.new m = target)
  | .wrap m inner, target => decide (GoError.wrap m inner = target) || inner.wraps target

/-- Containment of `sub` in `s` as a contiguous run of characters (`strings.Contains`). -/
def contains (s sub : String) : Prop := sub.data <:+: s.data

instance (s sub : String) : Decidable (contains s sub) := by
  unfold contains; infer_instance

/-! ## `strconv.Quote`, the `%q` verb -/

/-- The digit table `lowerhex` of `strconv`. -/
def lowerhex (n : Nat) : Char := "0123456789abcdef".data.getD (n % 16) '0'

/-- The `width` lowest hexadecimal digits of `n`, most significant first. -/
def hexDigits : Nat → Nat → List Char
  | 0, _ => []
  | w + 1, n => lowerhex (n / 16 ^ w) :: hexDigits w n

/-- The function `strconv.IsPrint`: decided directly on Latin-1, by the Unicode tables
(`table`) above it. -/
def isPrint (table : Char → Bool) (r : Char) : Bool :=
  if r.toNat ≤ 0xFF then
    if 0x20 ≤ r.toNat ∧ r.toNat ≤ 0x7E then true
    else if 0xA1 ≤ r.toNat ∧ r.toNat ≤ 0xFF then r.toNat != 0xAD
    else false
  else table r

/-- The function `appendEscapedRune` of `strconv` for the double quote, with `ASCIIonly` and
`graphicOnly` false. -/
def appendEscapedRune (table : Char → Bool) (r : Char) : List Char :=
  if r = '"' ∨ r = '\\' then ['\\', r]
  else if isPrint table r then [r]
  else if r.toNat = 7 then ['\\', 'a']
  else if r.toNat = 8 then ['\\', 'b']
  else if r.toNat = 12 then ['\\', 'f']
  else if r.toNat = 10 then ['\\', 'n']
  else if r.toNat = 13 then ['\\', 'r']
  else if r.toNat = 9 then ['\\', 't']
  else if r.toNat = 11 then ['\\', 'v']
  else if r.toNat < 0x20 ∨ r.toNat = 0x7f then '\\' :: 'x' :: hexDigits 2 r.toNat
  else if r.toNat < 0x10000 then '\\' :: 'u' :: hexDigits 4 r.toNat
  else '\\' :: 'U' :: hexDigits 8 r.toNat

/-- The body of a quoted string: every rune escaped in turn. -/
def quoteBody (table : Char → Bool) : List Char → List Char
  | [] => []
  | r :: rs => appendEscapedRune table r ++ quoteBody table rs

/-- The function `strconv.Quote`, which is what `%q` prints for a string. -/
def quote (table : Char → Bool) (s : String) : String :=
  ⟨'"' :: (quoteBody table s.data ++ ['"'])⟩

/-! ## The world outside the program -/

/-- A target group of file-based service discovery (`targetgroup.Group`). -/
structure Group where
  Targets : List (List (String × String))
  Labels : List (String × String)
  Source : String
  deriving DecidableEq

/-- The filesystem state and the library tables the validation consults.
`stat fn = none` means `os.Stat fn` succeeds: the file exists. -/
structure World where
  /-- The error of `os.Stat`, `none` when the path exists. -/
  stat : String → Option GoError
  /-- The function `filepath.Glob`: the matches, or the error of a malformed pattern. -/
  glob : String → Except GoError (List String)
  /-- The function `filepath.Clean`. -/
  clean : String → String
  /-- The function `os.ReadFile`. -/
  readFile : String → Except GoError String
  /-- The function `json.Unmarshal` into a slice of group pointers (`none` is a nil pointer). -/
  jsonUnmarshal : String → Except GoError (List (Option Group))
  /-- The function `yaml.UnmarshalStrict` into a slice of group pointers. -/
  yamlUnmarshalStrict : String → Except GoError (List (Option Group))
  /-- The Unicode tables behind `strconv.IsPrint` above Latin-1. -/
  printTable : Char → Bool

/-! ## Data model -/

/-- The part of `relabel.Config` the receiver reads. -/
structure RelabelConfig where
  SourceLabels : List String
  Regex : String
  TargetLabel : String
  Action : String
  deriving DecidableEq

/-- The type `commonconfig.TLSConfig`. -/
structure TLSConfig where
  CAFile : String
  CertFile : String
  KeyFile : String
  deriving DecidableEq

/-- The type `commonconfig.Authorization`. -/
structure Authorization where
  AuthType : String
  CredentialsFile : String
  deriving DecidableEq

/-- The type `commonconfig.HTTPClientConfig`; `Authorization` is a pointer. -/
structure HTTPClientConfig where
  Authorization : Option Authorization
  TLSConfig : TLSConfig
  deriving DecidableEq

/-- The service-discovery configurations, by dynamic type. Only `kubernetes.SDConfig` and
`file.SDConfig` have a case in the type switch of `validatePromConfig`. -/
inductive SDConfig where
  | kubernetes (HTTPClientConfig : HTTPClientConfig) : SDConfig
  | file (Files : List String) : SDConfig
  | static (targets : List String) : SDConfig
  | http (url : String) : SDConfig
  deriving DecidableEq

/-- The type `promconfig.ScrapeConfig`. -/
structure ScrapeConfig where
  JobName : String
  MetricRelabelConfigs : List RelabelConfig
  HTTPClientConfig : HTTPClientConfig
  ServiceDiscoveryConfigs : List SDConfig
  deriving DecidableEq

/-- The type `promconfig.AlertingConfig`; the elements are not inspected. -/
structure AlertingConfig where
  AlertRelabelConfigs : List RelabelConfig
  AlertmanagerConfigs : List String
  deriving DecidableEq

/-- The type `promconfig.Config`, the embedded scrape schema. -/
structure PromConfig where
  ScrapeConfigs : List ScrapeConfig
  RemoteWriteConfigs : List String
  RemoteReadConfigs : List String
  RuleFiles : List String
  AlertingConfig : AlertingConfig
  deriving DecidableEq

/-- The decoded `http_sd_config` block (`promHTTP.SDConfig`). -/
structure HTTPSDConfig where
  URL : String
  settings : List (String × String)
  deriving DecidableEq

/-- The struct `targetAllocator`. -/
structure TargetAllocator where
  Endpoint : String
  Interval : Int
  CollectorID : String
  HTTPSDConfig : Option HTTPSDConfig
  deriving DecidableEq

/-- The struct `Config`; both pointers are options. -/
structure Config where
  PrometheusConfig : Option PromConfig
  BufferPeriod : Int
  BufferCount : Int
  UseStartTimeMetric : Bool
  StartTimeMetricRegex : String
  TargetAllocator : Option TargetAllocator
  deriving DecidableEq

/-! ## File and TLS checks -/

/-- The function `checkFile`. -/
def checkFile (w : World) (fn : String) : Option GoError :=
  if fn = "" then none else w.stat fn

/-- The function `checkTLSConfig`. -/
def checkTLSConfig (w : World) (tlsConfig : TLSConfig) : Option GoError :=
  match checkFile w tlsConfig.CertFile with
  | some err =>
    some (.wrap ("error checking client cert file " ++ quote w.printTable tlsConfig.CertFile
      ++ ": " ++ err.msg) err)
  | none =>
    match checkFile w tlsConfig.KeyFile with
    | some err =>
      some (.wrap ("error checking client key file " ++ quote w.printTable tlsConfig.KeyFile
        ++ ": " ++ err.msg) err)
    | none =>
      if tlsConfig.CertFile.length > 0 ∧ tlsConfig.KeyFile.length = 0 then
        some (.new ("client cert file " ++ quote w.printTable tlsConfig.CertFile
          ++ " specified without client key file"))
      else if tlsConfig.KeyFile.length > 0 ∧ tlsConfig.CertFile.length = 0 then
        some (.new ("client key file " ++ quote w.printTable tlsConfig.KeyFile
          ++ " specified without client cert file"))
      else none

/-! ## `net/url`: `ParseRequestURI`

A transcription of `url.ParseRequestURI` of the Go standard library, that is of `parse` with
`viaRequest = true`, keeping the error and dropping the parsed URL, which
`validateTargetAllocatorConfig` discards. The library is transcribed as it was when this
source was written: a host in square brackets is checked for its closing bracket, its port
and its escapes, and not yet for being an IPv6 literal, a check later releases of the
library add and that rejects more endpoints. -/

/-- The function `stringContainsCTLByte`. -/
def stringContainsCTLByte (s : List Char) : Bool :=
  s.any (fun b => decide (b.toNat < 0x20) || decide (b.toNat = 0x7f))

/-- The loop of `getScheme` at index `i`, with `s` the rest of `rawURL` from `i` on; the
result is the scheme and the rest after the colon. -/
def getSchemeFrom (rawURL : List Char) : Nat → List Char → Except GoError (List Char × List Char)
  | _, [] => .ok ([], rawURL)
  | i, c :: s =>
    if c.isAlpha then getSchemeFrom rawURL (i + 1) s
    else if c.isDigit ∨ c = '+' ∨ c = '-' ∨ c = '.' then
      if i = 0 then .ok ([], rawURL) else getSchemeFrom rawURL (i + 1) s
    else if c = ':' then
      if i = 0 then .error (.new "missing protocol scheme") else .ok (rawURL.take i, s)
    else .ok ([], rawURL)

/-- The function `getScheme`. -/
def getScheme (rawURL : List Char) : Except GoError (List Char × List Char) :=
  getSchemeFrom rawURL 0 rawURL

/-- The function `ishex`. -/
def ishex (c : Char) : Bool :=
  c.isDigit || (decide ('a' ≤ c) && decide (c ≤ 'f')) || (decide ('A' ≤ c) && decide (c ≤ 'F'))

/-- The function `unhex`. -/
def unhex (c : Char) : Nat :=
  if c.isDigit then c.toNat - '0'.toNat
  else if 'a' ≤ c ∧ c ≤ 'f' then c.toNat - 'a'.toNat + 10
  else if 'A' ≤ c ∧ c ≤ 'F' then c.toNat - 'A'.toNat + 10
  else 0

/-- The function `shouldEscape` at mode `encodeHost`, the only mode `unescape` asks about. -/
def shouldEscape (c : Char) : Bool :=
  if c.isAlphanum then false
  else if c ∈ "!$&\x27()*+,;=:[]<>\"".data then false
  else if c ∈ "-_.~".data then false
  else true

/-- The modes of `unescape` that `parse` uses. -/
inductive Encoding where
  | encodePath | encodeHost | encodeZone | encodeUserPassword
  deriving DecidableEq

/-- The error `EscapeError`. -/
def escapeError (table : Char → Bool) (s : List Char) : GoError :=
  .new ("invalid URL escape " ++ quote table ⟨s⟩)

/-- The error `InvalidHostError`. -/
def invalidHostError (table : Char → Bool) (s : List Char) : GoError :=
  .new ("invalid character " ++ quote table ⟨s⟩ ++ " in host name")

/-- The validating first pass of `unescape`: the error it returns, if any. -/
def unescape (table : Char → Bool) (mode : Encoding) : List Char → Option GoError
  | [] => none
  | c :: s =>
    if c = '%' then
      match s with
      | a :: b :: s2 =>
        if !ishex a || !ishex b then some (escapeError table [c, a, b])
        else if mode = .encodeHost ∧ unhex a < 8 ∧ [c, a, b] ≠ "%25".data then
          some (escapeError table [c, a, b])
        else if mode = .encodeZone ∧ [c, a, b] ≠ "%25".data ∧ unhex a * 16 + unhex b ≠ 0x20
            ∧ shouldEscape (Char.ofNat (unhex a * 16 + unhex b)) then
          some (escapeError table [c, a, b])
        else unescape table mode s2
      | _ => some (escapeError table (c :: s))
    else if c = '+' then unescape table mode s
    else if (mode = .encodeHost ∨ mode = .encodeZone) ∧ c.toNat < 0x80 ∧ shouldEscape c then
      some (invalidHostError table [c])
    else unescape table mode s

/-- The function `validOptionalPort`. -/
def validOptionalPort (port : List Char) : Bool :=
  match port with
  | [] => true
  | c :: digits => decide (c = ':') && digits.all Char.isDigit

/-- The function `validUserinfo`. -/
def validUserinfo (s : List Char) : Bool :=
  s.all (fun r => r.isAlphanum || decide (r ∈ "-._:~!$&\x27()*+,;=%@".data))

/-- The index of the last occurrence of `c` in `s` (`strings.LastIndex` for one byte). -/
def lastIndex (c : Char) (s : List Char) : Option Nat :=
  match s.reverse.indexOf? c with
  | some k => some (s.length - 1 - k)
  | none => none

/-- The index of the first occurrence of `sub` in `s` (`strings.Index`). -/
def index (sub : List Char) : List Char → Option Nat
  | [] => if sub = [] then some 0 else none
  | c :: s =>
    if sub.isPrefixOf (c :: s) then some 0
    else (index sub s).map (· + 1)

/-- The function `parseHost`, reduced to its error. -/
def parseHost (table : Char → Bool) (host : List Char) : Option GoError :=
  if host.head? = some '[' then
    match lastIndex ']' host with
    | none => some (.new "missing \x27]\x27 in host")
    | some i =>
      let colonPort := host.drop (i + 1)
      if !validOptionalPort colonPort then
        some (.new ("invalid port " ++ quote table ⟨colonPort⟩ ++ " after host"))
      else
        match index "%25".data (host.take i) with
        | some zone =>
          match unescape table .encodeHost (host.take zone) with
          | some err => some err
          | none =>
            match unescape table .encodeZone ((host.take i).drop zone) with
            | some err => some err
            | none => unescape table .encodeHost (host.drop i)
        | none => unescape table .encodeHost host
  else
    match lastIndex ':' host with
    | some i =>
      let colonPort := host.drop i
      if !validOptionalPort colonPort then
        some (.new ("invalid port " ++ quote table ⟨colonPort⟩ ++ " after host"))
      else unescape table .encodeHost host
    | none => unescape table .encodeHost host

/-- The function `parseAuthority`, reduced to its error. -/
def parseAuthority (table : Char → Bool) (authority : List Char) : Option GoError :=
  match lastIndex '@' authority with
  | none => parseHost table authority
  | some i =>
    match parseHost table (authority.drop (i + 1)) with
    | some err => some err
    | none =>
      let userinfo := authority.take i
      if !validUserinfo userinfo then some (.new "net/url: invalid userinfo")
      else if ':' ∉ userinfo then unescape table .encodeUserPassword userinfo
      else
        match unescape table .encodeUserPassword (userinfo.takeWhile (· != ':')) with
        | some err => some err
        | none => unescape table .encodeUserPassword ((userinfo.dropWhile (· != ':')).drop 1)

/-- The function `parse` with `viaRequest = true`, reduced to its error. -/
def parse (table : Char → Bool) (rawURL : List Char) : Option GoError :=
  if stringContainsCTLByte rawURL then some (.new "net/url: invalid control character in URL")
  else if rawURL = [] then some (.new "empty url")
  else if rawURL = ['*'] then none
  else
    match getScheme rawURL with
    | .error err => some err
    | .ok (scheme, rest0) =>
      let rest :=
        if rest0.getLast? = some '?' ∧ rest0.count '?' = 1 then rest0.dropLast
        else rest0.takeWhile (· != '?')
      if rest.head? ≠ some '/' then
        if scheme ≠ [] then none else some (.new "invalid URI for request")
      else if scheme ≠ [] ∧ "//".data.isPrefixOf rest then
        let authority := (rest.drop 2).takeWhile (· != '/')
        let path := (rest.drop 2).dropWhile (· != '/')
        match parseAuthority table authority with
        | some err => some err
        | none => unescape table .encodePath path
      else unescape table .encodePath rest

/-- The function `url.ParseRequestURI`, reduced to its error. -/
def parseRequestURI (table : Char → Bool) (rawURL : String) : Option GoError :=
  match parse table rawURL.data with
  | some err => some (.wrap ("parse " ++ quote table rawURL ++ ": " ++ err.msg) err)
  | none => none

/-! ## File-based service discovery -/

/-- The backward scan of `filepath.Ext`: `before` is the path up to the current byte,
reversed, and `suffix` what follows it. -/
def extScan : List Char → List Char → List Char
  | [], _ => []
  | c :: before, suffix =>
    if c = '/' then []
    else if c = '.' then c :: suffix
    else extScan before (c :: suffix)

/-- The function `filepath.Ext`, with `/` the path separator. -/
def filepathExt (path : String) : String := ⟨extScan path.data.reverse []⟩

/-- The function `unicode.ToLower` on ASCII; no rune above ASCII maps to a letter of
`.json`, `.yml` or `.yaml`, and such runes are left in place. -/
def toLowerRune (r : Char) : Char :=
  if 'A' ≤ r ∧ r ≤ 'Z' then Char.ofNat (r.toNat + 32) else r

/-- The function `strings.ToLower`. -/
def toLower (s : String) : String := ⟨s.data.map toLowerRune⟩

/-- The loop over the parsed target groups, from index `i`. -/
def checkGroups : Nat → List (Option Group) → Option GoError
  | _, [] => none
  | i, tg :: tgs =>
    match tg with
    | none => some (.new ("nil target group item found (index " ++ toString i ++ ")"))
    | some _ => checkGroups (i + 1) tgs

/-- The function `checkSDFile`. -/
def checkSDFile (w : World) (filename : String) : Option GoError :=
  match w.readFile (w.clean filename) with
  | .error err => some err
  | .ok content =>
    let ext := filepathExt filename
    if toLower ext = ".json" then
      match w.jsonUnmarshal content with
      | .error err => some (.wrap ("error in unmarshaling json file extension: " ++ err.msg) err)
      | .ok targetGroups => checkGroups 0 targetGroups
    else if toLower ext = ".yml" ∨ toLower ext = ".yaml" then
      match w.yamlUnmarshalStrict content with
      | .error err => some (.wrap ("error in unmarshaling yaml file extension: " ++ err.msg) err)
      | .ok targetGroups => checkGroups 0 targetGroups
    else some (.new ("invalid file extension: " ++ quote w.printTable ext))

/-! ## Validation -/

/-- The order `<` of Go on strings: lexicographic by character code. -/
def stringLess : List Char → List Char → Bool
  | _, [] => false
  | [], _ :: _ => true
  | a :: as, b :: bs =>
    if a.toNat < b.toNat then true
    else if b.toNat < a.toNat then false
    else stringLess as bs

/-- The function `sort.Strings`: the rearrangement that is ascending for `<`, which is
unique, computed by insertion. -/
def sortStrings (l : List String) : List String :=
  l.insertionSort (fun a b => stringLess b.data a.data = false)

/-- The function `strings.Join`. -/
def join (elems : List String) (sep : String) : String := sep.intercalate elems

/-- The slice `unsupportedFeatures` after the five appends, before it is sorted. -/
def unsupportedFeatures (promConfig : PromConfig) : List String :=
  (if promConfig.RemoteWriteConfigs.length ≠ 0 then ["remote_write"] else [])
  ++ (if promConfig.RemoteReadConfigs.length ≠ 0 then ["remote_read"] else [])
  ++ (if promConfig.RuleFiles.length ≠ 0 then ["rule_files"] else [])
  ++ (if promConfig.AlertingConfig.AlertRelabelConfigs.length ≠ 0
        then ["alert_config.relabel_configs"] else [])
  ++ (if promConfig.AlertingConfig.AlertmanagerConfigs.length ≠ 0
        then ["alert_config.alertmanagers"] else [])

/-- The inner loop `for _, f := range files` of `validatePromConfig`. -/
def checkMatches (w : World) (file : String) : List String → Option GoError
  | [] => none
  | f :: files =>
    match checkSDFile w f with
    | some err =>
      some (.wrap ("checking SD file " ++ quote w.printTable file ++ ": " ++ err.msg) err)
    | none => checkMatches w file files

/-- The loop `for _, file := range c.Files` of `validatePromConfig`. -/
def checkPatterns (w : World) (jobName : String) : List String → Option GoError
  | [] => none
  | file :: rest =>
    match w.glob file with
    | .error err => some err
    | .ok files =>
      if files.length ≠ 0 then
        match checkMatches w file files with
        | some err => some err
        | none => checkPatterns w jobName rest
      else
        some (.new ("file " ++ quote w.printTable file ++ " for file_sd in scrape job "
          ++ quote w.printTable jobName ++ " does not exist"))

/-- The body of the type switch on one service-discovery configuration. -/
def checkSDConfig (w : World) (jobName : String) : SDConfig → Option GoError
  | .kubernetes httpClientConfig => checkTLSConfig w httpClientConfig.TLSConfig
  | .file files => checkPatterns w jobName files
  | .static _ => none
  | .http _ => none

/-- The loop `for _, c := range sc.ServiceDiscoveryConfigs`. -/
def checkSDConfigs (w : World) (jobName : String) : List SDConfig → Option GoError
  | [] => none
  | c :: cs =>
    match checkSDConfig w jobName c with
    | some err => some err
    | none => checkSDConfigs w jobName cs

/-- The loop `for _, rc := range sc.MetricRelabelConfigs`. -/
def checkRelabel (errRenamingDisallowed : GoError) (jobName : String) :
    List RelabelConfig → Option GoError
  | [] => none
  | rc :: rcs =>
    if rc.TargetLabel = "__name__" then
      some (.wrap ("error validating scrapeconfig for job " ++ jobName ++ ": "
        ++ errRenamingDisallowed.msg) errRenamingDisallowed)
    else checkRelabel errRenamingDisallowed jobName rcs

/-- The check of the authorization credentials file of one job. -/
def checkAuthorization (w : World) (sc : ScrapeConfig) : Option GoError :=
  match sc.HTTPClientConfig.Authorization with
  | some authorization =>
    match checkFile w authorization.CredentialsFile with
    | some err =>
      some (.wrap ("error checking authorization credentials file "
        ++ quote w.printTable authorization.CredentialsFile ++ ": " ++ err.msg) err)
    | none => none
  | none => none

/-- The body of the loop over the scrape configs, for one job. The sentinel
`errRenamingDisallowed` is declared in another file of the package and is a parameter. -/
def checkScrapeConfig (errRenamingDisallowed : GoError) (w : World) (sc : ScrapeConfig) :
    Option GoError :=
  match checkRelabel errRenamingDisallowed sc.JobName sc.MetricRelabelConfigs with
  | some err => some err
  | none =>
    match checkAuthorization w sc with
    | some err => some err
    | none =>
      match checkTLSConfig w sc.HTTPClientConfig.TLSConfig with
      | some err => some err
      | none => checkSDConfigs w sc.JobName sc.ServiceDiscoveryConfigs

/-- The loop `for _, sc := range cfg.PrometheusConfig.ScrapeConfigs`. -/
def checkScrapeConfigs (errRenamingDisallowed : GoError) (w : World) :
    List ScrapeConfig → Option GoError
  | [] => none
  | sc :: scs =>
    match checkScrapeConfig errRenamingDisallowed w sc with
    | some err => some err
    | none => checkScrapeConfigs errRenamingDisallowed w scs

/-- The method `Config.validatePromConfig`. The loop ranges over
`cfg.PrometheusConfig.ScrapeConfigs`; a nil `cfg.PrometheusConfig` has no scrape configs to
range over (the method is only called with `promConfig = cfg.PrometheusConfig`). -/
def validatePromConfig (errRenamingDisallowed : GoError) (w : World) (cfg : Config)
    (promConfig : PromConfig) : Option GoError :=
  if promConfig.ScrapeConfigs.length = 0 ∧ cfg.TargetAllocator = none then
    some (.new "no Prometheus scrape_configs or target_allocator set")
  else if (unsupportedFeatures promConfig).length ≠ 0 then
    some (.new ("unsupported features:\n\t"
      ++ join (sortStrings (unsupportedFeatures promConfig)) "\n\t"))
  else
    checkScrapeConfigs errRenamingDisallowed w
      (match cfg.PrometheusConfig with
       | some c => c.ScrapeConfigs
       | none => [])

/-- The method `Config.validateTargetAllocatorConfig`. -/
def validateTargetAllocatorConfig (w : World) (cfg : Config) : Option GoError :=
  match cfg.TargetAllocator with
  | none => none
  | some targetAllocatorConfig =>
    match parseRequestURI w.printTable targetAllocatorConfig.Endpoint with
    | some _ =>
      some (.new ("TargetAllocator endpoint is not valid: " ++ targetAllocatorConfig.Endpoint))
    | none =>
      if targetAllocatorConfig.CollectorID = ""
          ∨ contains targetAllocatorConfig.CollectorID "$\x7b" then
        some (.new "CollectorID is not a valid ID")
      else none

/-- The method `Config.Validate`. -/
def Validate (errRenamingDisallowed : GoError) (w : World) (cfg : Config) : Option GoError :=
  match
    (match cfg.PrometheusConfig with
     | some promConfig => validatePromConfig errRenamingDisallowed w cfg promConfig
     | none => none) with
  | some err => some err
  | none =>
    match cfg.TargetAllocator with
    | some _ => validateTargetAllocatorConfig w cfg
    | none => none

/-! ## Unmarshalling -/

/-- A value of the generic configuration tree. -/
inductive Value where
  | null : Value
  | scalar (s : String) : Value
  | seq (items : List Value) : Value
  | map (entries : List (String × Value)) : Value

/-- A string map (`map[string]any`), as the list of its entries; a key is looked up at its
first entry. -/
abbrev StringMap := List (String × Value)

/-- The value at `key`, `none` when the key is absent. -/
def StringMap.get (m : StringMap) (key : String) : Option Value := m.lookup key

/-- The assignment `m[key] = v`. -/
def StringMap.set (m : StringMap) (key : String) (v : Value) : StringMap :=
  (key, v) :: m.filter (fun e => e.1 != key)

/-- The kind of a tree value, as `reflect.Kind` prints it; a scalar of the tree is a
string. -/
def kindOf : Value → String
  | .null => "invalid"
  | .scalar _ => "string"
  | .seq _ => "slice"
  | .map _ => "map"

/-- The method `Conf.Sub` of `confmap`: the sub-tree at `key`, empty when the key is absent
or null, an error when the value is not a map. The error prints the value with `%v`, which
is the parameter `format`. -/
def sub (format : Value → String) (conf : StringMap) (key : String) :
    Except GoError StringMap :=
  match conf.get key with
  | none => .ok []
  | some .null => .ok []
  | some (.map entries) => .ok entries
  | some v =>
    .error (.new ("unexpected sub-config value kind for key:" ++ key ++ " value:" ++ format v
      ++ " kind:" ++ kindOf v ++ ")"))

/-- The decoders `Unmarshal` calls, which belong to other packages. -/
structure Decoders where
  /-- The call `componentParser.Unmarshal(cfg, confmap.WithErrorUnused())`: the generic strict
  decode of the tree onto the receiver. -/
  decode : StringMap → Config → Except GoError Config
  /-- The function `yaml.Marshal` on a string map. -/
  yamlMarshal : StringMap → Except GoError String
  /-- The function `yaml.UnmarshalStrict` into `&cfg.PrometheusConfig`. -/
  unmarshalPromConfig : String → Except GoError PromConfig
  /-- The function `yaml.UnmarshalStrict` into `&cfg.TargetAllocator.HTTPSDConfig`. -/
  unmarshalHTTPSDConfig : String → Except GoError HTTPSDConfig
  /-- The text `fmt` prints for a tree value under `%v`. -/
  formatValue : Value → String

/-- The outcome of a call of `Unmarshal`: `ok cfg` is a nil error with `cfg` the receiver
after the call; `panic` is a nil-pointer dereference. -/
inductive Outcome where
  | ok (cfg : Config) : Outcome
  | error (err : GoError) : Outcome
  | panic : Outcome
  deriving DecidableEq

/-- The constant `prometheusConfigKey`. -/
def prometheusConfigKey : String := "config"

/-- The constant `targetAllocatorConfigKey`. -/
def targetAllocatorConfigKey : String := "target_allocator"

/-- The constant `targetAllocatorHTTPSDConfigKey`. -/
def targetAllocatorHTTPSDConfigKey : String := "http_sd_config"

/-- The last section of `Unmarshal`, from the comment `Unmarshal targetAllocator configs`
on; `cfg` is the receiver as the earlier sections left it. -/
def unmarshalTargetAllocator (d : Decoders) (cfg : Config) (componentParser : StringMap) :
    Outcome :=
  match sub d.formatValue componentParser targetAllocatorConfigKey with
  | .error err => .error err
  | .ok targetAllocatorCfg =>
    match sub d.formatValue targetAllocatorCfg targetAllocatorHTTPSDConfigKey with
    | .error err => .error err
    | .ok targetAllocatorHTTPSDMap =>
      if targetAllocatorHTTPSDMap.length ≠ 0 then
        match d.yamlMarshal (targetAllocatorHTTPSDMap.set "url" (.scalar "http://placeholder")) with
        | .error err =>
          .error (.wrap ("prometheus receiver failed to marshal config to yaml: " ++ err.msg) err)
        | .ok httpSDConf =>
          match cfg.TargetAllocator with
          | none => .panic
          | some targetAllocator =>
            match d.unmarshalHTTPSDConfig httpSDConf with
            | .error err =>
              .error (.wrap ("prometheus receiver failed to unmarshal yaml to prometheus config: "
                ++ err.msg) err)
            | .ok sd =>
              .ok { cfg with TargetAllocator := some { targetAllocator with HTTPSDConfig := some sd } }
      else .ok cfg

/-- The method `Config.Unmarshal`; a nil `componentParser` is `none`. -/
def Unmarshal (d : Decoders) (cfg : Config) (componentParser : Option StringMap) : Outcome :=
  match componentParser with
  | none => .ok cfg
  | some componentParser =>
    match d.decode componentParser cfg with
    | .error err => .error (.wrap ("prometheus receiver failed to parse config: " ++ err.msg) err)
    | .ok cfg1 =>
      match sub d.formatValue componentParser prometheusConfigKey with
      | .error err => .error err
      | .ok promCfg =>
        if promCfg.length = 0 then .ok cfg1
        else
          match d.yamlMarshal promCfg with
          | .error err =>
            .error (.wrap ("prometheus receiver failed to marshal config to yaml: " ++ err.msg) err)
          | .ok out =>
            match d.unmarshalPromConfig out with
            | .error err =>
              .error (.wrap ("prometheus receiver failed to unmarshal yaml to prometheus config: "
                ++ err.msg) err)
            | .ok promConfig =>
              unmarshalTargetAllocator d { cfg1 with PrometheusConfig := some promConfig }
                componentParser

/-! ## The properties as the specification words them -/

/-- The five disallowed feature names, in ascending order. -/
def featureNames : List String :=
  ["alert_config.alertmanagers", "alert_config.relabel_configs", "remote_read", "remote_write",
    "rule_files"]

/-- Whether the disallowed feature called `name` is present in the scrape schema. -/
def featurePresent (pc : PromConfig) (name : String) : Bool :=
  (name == "remote_write" && !pc.RemoteWriteConfigs.isEmpty)
  || (name == "remote_read" && !pc.RemoteReadConfigs.isEmpty)
  || (name == "rule_files" && !pc.RuleFiles.isEmpty)
  || (name == "alert_config.relabel_configs" && !pc.AlertingConfig.AlertRelabelConfigs.isEmpty)
  || (name == "alert_config.alertmanagers" && !pc.AlertingConfig.AlertmanagerConfigs.isEmpty)

/-- The message the specification gives the unsupported-feature error: the heading followed
by the names, each on a line of its own. -/
def unsupportedMessage (names : List String) : String :=
  "unsupported features:" ++ String.join (names.map (fun name => "\n\t" ++ name))

/-- The first per-job violation of the schema `pc`, in declaration order, is the file
discovery pattern `pattern` of the job `sc`, a well-formed glob that matches no file: the
jobs before `sc` pass their checks, `sc` passes its relabel, credentials and TLS checks, the
discovery configurations of `sc` before the one holding `pattern` pass, and so do the
patterns before `pattern`. -/
def FirstViolationIsEmptyPattern (e : GoError) (w : World) (pc : PromConfig) (sc : ScrapeConfig)
    (pattern : String) : Prop :=
  ∃ pre post sdpre sdpost fpre fpost,
    pc.ScrapeConfigs = pre ++ sc :: post
    ∧ (∀ j ∈ pre, checkScrapeConfig e w j = none)
    ∧ checkRelabel e sc.JobName sc.MetricRelabelConfigs = none
    ∧ checkAuthorization w sc = none
    ∧ checkTLSConfig w sc.HTTPClientConfig.TLSConfig = none
    ∧ sc.ServiceDiscoveryConfigs = sdpre ++ SDConfig.file (fpre ++ pattern :: fpost) :: sdpost
    ∧ (∀ c ∈ sdpre, checkSDConfig w sc.JobName c = none)
    ∧ checkPatterns w sc.JobName fpre = none
    ∧ w.glob pattern = .ok []

/-- Every character of `s` is one that `%q` prints as itself: printable, and neither the
double quote nor the backslash. -/
def Plain (table : Char → Bool) (s : String) : Prop :=
  ∀ c ∈ s.data, c ≠ '"' ∧ c ≠ '\\' ∧ isPrint table c = true

instance (table : Char → Bool) (s : String) : Decidable (Plain table s) := by
  unfold Plain; infer_instance

/-- The scrape jobs of a configuration; an unset scrape schema has none. -/
def scrapeJobs (cfg : Config) : List ScrapeConfig :=
  match cfg.PrometheusConfig with
  | some pc => pc.ScrapeConfigs
  | none => []

/-- Check (1), the presence check: a scrape job exists or a target allocator is configured. -/
def presenceCheck (cfg : Config) : Option GoError :=
  if scrapeJobs cfg = [] ∧ cfg.TargetAllocator = none then
    some (.new "no Prometheus scrape_configs or target_allocator set")
  else none

/-- Check (2), the unsupported-feature scan: one error naming every feature present. -/
def featureCheck (cfg : Config) : Option GoError :=
  match cfg.PrometheusConfig with
  | some pc =>
    if featureNames.filter (featurePresent pc) ≠ [] then
      some (.new (unsupportedMessage (featureNames.filter (featurePresent pc))))
    else none
  | none => none

/-- Checks (3) of one job, in order: the protected relabel target, the authorization
credentials file, the TLS block of the job, then its discovery configurations in sequence. -/
def jobChecks (e : GoError) (w : World) (sc : ScrapeConfig) : List (Option GoError) :=
  [checkRelabel e sc.JobName sc.MetricRelabelConfigs, checkAuthorization w sc,
    checkTLSConfig w sc.HTTPClientConfig.TLSConfig]
  ++ sc.ServiceDiscoveryConfigs.map (checkSDConfig w sc.JobName)

/-- Checks (3) of all jobs, in declaration order. -/
def allJobChecks (e : GoError) (w : World) : List ScrapeConfig → List (Option GoError)
  | [] => []
  | sc :: scs => jobChecks e w sc ++ allJobChecks e w scs

/-- The endpoint check of the target allocator. -/
def endpointCheck (w : World) (ta : TargetAllocator) : Option GoError :=
  match parseRequestURI w.printTable ta.Endpoint with
  | some _ => some (.new ("TargetAllocator endpoint is not valid: " ++ ta.Endpoint))
  | none => none

/-- The collector ID check of the target allocator. -/
def collectorIDCheck (ta : TargetAllocator) : Option GoError :=
  if ta.CollectorID = "" ∨ contains ta.CollectorID "$\x7b" then
    some (.new "CollectorID is not a valid ID")
  else none

/-- Checks (4): the endpoint, then the collector ID, only with a target allocator. -/
def allocatorChecks (w : World) (cfg : Config) : List (Option GoError) :=
  match cfg.TargetAllocator with
  | some ta => [endpointCheck w ta, collectorIDCheck ta]
  | none => []

/-- The checks (1) to (4) in the fixed order of the specification. -/
def orderedChecks (e : GoError) (w : World) (cfg : Config) : List (Option GoError) :=
  [presenceCheck cfg, featureCheck cfg] ++ allJobChecks e w (scrapeJobs cfg)
    ++ allocatorChecks w cfg

/-- The checks that run: all four groups when a scrape schema is set, only the target
allocator checks when it is not. -/
def checksRun (e : GoError) (w : World) (cfg : Config) : List (Option GoError) :=
  match cfg.PrometheusConfig with
  | some _ => orderedChecks e w cfg
  | none => allocatorChecks w cfg

/-- The error of the first failing check of a sequence. -/
def firstFailure : List (Option GoError) → Option GoError
  | [] => none
  | some err :: _ => some err
  | none :: checks => firstFailure checks

/-! ## Sample worlds and configurations -/

/-- A filesystem with no file: every lookup fails and every pattern matches nothing. -/
def emptyWorld : World where
  stat := fun fn => some (.new ("stat " ++ fn ++ ": no such file or directory"))
  glob := fun _ => .ok []
  clean := fun fn => fn
  readFile := fun fn => .error (.new ("open " ++ fn ++ ": no such file or directory"))
  jsonUnmarshal := fun _ => .ok []
  yamlUnmarshalStrict := fun _ => .ok []
  printTable := fun _ => false

/-- A filesystem in which every path exists, as an empty file. -/
def fullWorld : World where
  stat := fun _ => none
  glob := fun pattern => .ok [pattern]
  clean := fun fn => fn
  readFile := fun _ => .ok ""
  jsonUnmarshal := fun _ => .ok []
  yamlUnmarshalStrict := fun _ => .ok []
  printTable := fun _ => false

/-- The sentinel error of the package, with the message it has upstream. -/
def sampleRenamingError : GoError :=
  .new "metric renaming using metric_relabel_configs is disallowed"

/-- A configuration with neither a scrape schema nor a target allocator. -/
def bareConfig : Config :=
  { PrometheusConfig := none, BufferPeriod := 0, BufferCount := 0, UseStartTimeMetric := false,
    StartTimeMetricRegex := "", TargetAllocator := none }

/-- A scrape schema with no job and no disallowed feature. -/
def emptySchema : PromConfig :=
  { ScrapeConfigs := [], RemoteWriteConfigs := [], RemoteReadConfigs := [], RuleFiles := [],
    AlertingConfig := { AlertRelabelConfigs := [], AlertmanagerConfigs := [] } }

/-- The configuration whose scrape schema is `pc`, with no target allocator. -/
def schemaConfig (pc : PromConfig) : Config :=
  { bareConfig with PrometheusConfig := some pc }

/-- A scrape schema with no job in which only rule files are present. -/
def ruleSchema : PromConfig := { emptySchema with RuleFiles := ["rules.yml"] }

/-- An HTTP client configuration with no credentials and no TLS material. -/
def plainClient : HTTPClientConfig :=
  { Authorization := none, TLSConfig := { CAFile := "", CertFile := "", KeyFile := "" } }

/-- A job with the given name and nothing else. -/
def plainJob (name : String) : ScrapeConfig :=
  { JobName := name, MetricRelabelConfigs := [], HTTPClientConfig := plainClient,
    ServiceDiscoveryConfigs := [] }

/-- A scrape schema with one job, rule files and a remote-write target. -/
def featureSchema : PromConfig :=
  { emptySchema with ScrapeConfigs := [plainJob "node"], RuleFiles := ["rules.yml"],
                     RemoteWriteConfigs := ["http://remote"] }

/-- A target allocator with the given endpoint and collector ID. -/
def sampleAllocator (endpoint collectorID : String) : TargetAllocator :=
  { Endpoint := endpoint, Interval := 30, CollectorID := collectorID, HTTPSDConfig := none }

/-- A job named `node` with a relabel rule that rewrites the metric name. -/
def renameJob : ScrapeConfig :=
  { plainJob "node" with
    MetricRelabelConfigs :=
      [{ SourceLabels := ["__name__"], Regex := "(.*)", TargetLabel := "__name__",
         Action := "replace" }] }

/-- A scrape schema whose only job is `renameJob`. -/
def renameSchema : PromConfig := { emptySchema with ScrapeConfigs := [renameJob] }

/-- A TLS block with the given client certificate and key paths. -/
def sampleTLS (cert key : String) : TLSConfig :=
  { CAFile := "", CertFile := cert, KeyFile := key }

/-- A job with the given name whose only discovery block is one file pattern. -/
def fileJob (name pattern : String) : ScrapeConfig :=
  { plainJob name with ServiceDiscoveryConfigs := [.file [pattern]] }

/-- A scrape schema whose only job is `fileJob name pattern`. -/
def fileSchema (name pattern : String) : PromConfig :=
  { emptySchema with ScrapeConfigs := [fileJob name pattern] }

/-- The configuration with no scrape schema and the given target allocator. -/
def allocatorConfig (ta : TargetAllocator) : Config :=
  { bareConfig with TargetAllocator := some ta }

/-- A job named `node` whose credentials file is `/etc/token`. -/
def credentialsJob : ScrapeConfig :=
  { plainJob "node" with
    HTTPClientConfig :=
      { plainClient with
        Authorization := some { AuthType := "Bearer", CredentialsFile := "/etc/token" } } }

/-- The scalar at `key` of a string map, empty when there is none. -/
def scalarAt (m : StringMap) (key : String) : String :=
  match m.get key with
  | some (.scalar v) => v
  | _ => ""

/-- A rendering of the scalar entries of a string map, one `key: value` line each. -/
def renderScalars (m : StringMap) : String :=
  String.join (m.map (fun entry =>
    match entry.2 with
    | .scalar v => entry.1 ++ ": " ++ v ++ "\n"
    | _ => entry.1 ++ ":\n"))

/-- A sample rendering of a tree value: a scalar as it is, a sequence or a map by its
number of entries. -/
def sampleFormat : Value → String
  | .null => "<nil>"
  | .scalar v => v
  | .seq items => "[" ++ toString items.length ++ " items]"
  | .map entries => "map[" ++ toString entries.length ++ " entries]"

/-- Sample decoders: the generic decoder fills the target allocator from its sub-tree, the
scrape-schema decoder yields a schema with one job, and the HTTP discovery decoder records
the text it is given. -/
def sampleDecoders : Decoders where
  decode := fun tree cfg =>
    match sub sampleFormat tree targetAllocatorConfigKey with
    | .error err => .error err
    | .ok [] => .ok cfg
    | .ok (entry :: entries) =>
      .ok { cfg with
            TargetAllocator := some
              { Endpoint := scalarAt (entry :: entries) "endpoint", Interval := 30,
                CollectorID := scalarAt (entry :: entries) "collector_id",
                HTTPSDConfig := none } }
  yamlMarshal := fun m => .ok (renderScalars m)
  unmarshalPromConfig := fun _ => .ok { emptySchema with ScrapeConfigs := [plainJob "node"] }
  unmarshalHTTPSDConfig := fun text =>
    .ok { URL := "http://placeholder", settings := [("yaml", text)] }
  formatValue := sampleFormat

/-- A target allocator sub-tree with a non-empty `http_sd_config` block. -/
def allocatorTree : Value :=
  .map [("endpoint", .scalar "http://localhost:8080"), ("collector_id", .scalar "col-1"),
    ("http_sd_config", .map [("refresh_interval", .scalar "60s")])]

/-- A configuration tree with a target allocator and no `config` key. -/
def allocatorOnlyTree : StringMap := [("target_allocator", allocatorTree)]

/-- The same tree with a non-empty `config` sub-tree besides. -/
def allocatorAndConfigTree : StringMap :=
  [("config", .map [("scrape_configs", .seq [.map [("job_name", .scalar "node")]])]),
    ("target_allocator", allocatorTree)]

/-- The field `TargetAllocator.HTTPSDConfig` of the receiver after a call that returned
nil; `none` when it is unset or the call did not return nil. -/
def httpSDConfigOf : Outcome → Option HTTPSDConfig
  | .ok cfg =>
    match cfg.TargetAllocator with
    | some ta => ta.HTTPSDConfig
    | none => none
  | _ => none

/-- Whether the call returned a nil error. -/
def Outcome.succeeded : Outcome → Bool
  | .ok _ => true
  | _ => false

/-- A target group that is structurally empty: no target, no label and no source. -/
def Group.structurallyEmpty (g : Group) : Bool :=
  g.Targets.isEmpty && g.Labels.isEmpty && g.Source == ""

/-- An element of the parsed sequence that is a nil pointer or a structurally empty group. -/
def nilOrEmpty : Option Group → Bool
  | none => true
  | some g => g.structurallyEmpty

/-- The file `filename` is readable, has a supported extension, and its content parses,
by the parser of that extension, into the sequence `groups`. -/
def ParsesInto (w : World) (filename : String) (groups : List (Option Group)) : Prop :=
  ∃ content, w.readFile (w.clean filename) = .ok content
    ∧ ((toLower (filepathExt filename) = ".json" ∧ w.jsonUnmarshal content = .ok groups)
      ∨ ((toLower (filepathExt filename) = ".yml" ∨ toLower (filepathExt filename) = ".yaml")
          ∧ w.yamlUnmarshalStrict content = .ok groups))

/-- What `checkSDFile` returns for a content that went through the parser of the format
`format` with the result `parsed`. -/
def afterParse (format : String) (parsed : Except GoError (List (Option Group))) :
    Option GoError :=
  match parsed with
  | .error err =>
    some (.wrap ("error in unmarshaling " ++ format ++ " file extension: " ++ err.msg) err)
  | .ok targetGroups => checkGroups 0 targetGroups

/-- A filesystem in which every path exists and is readable, every pattern matches the files
`found`, and both parsers return `parsed` on every content. -/
def sdWorld (found : List String) (parsed : Except GoError (List (Option Group))) : World where
  stat := fun _ => none
  glob := fun _ => .ok found
  clean := fun fn => fn
  readFile := fun _ => .ok "content"
  jsonUnmarshal := fun _ => parsed
  yamlUnmarshalStrict := fun _ => parsed
  printTable := fun _ => false

/-- A target group with one target. -/
def sampleGroup : Group :=
  { Targets := [[("__address__", "localhost:9090")]], Labels := [], Source := "" }

/-- A structurally empty target group. -/
def emptyGroup : Group := { Targets := [], Labels := [], Source := "" }

/-- The content of the readable file `f` fails to parse, by the parser of its extension,
with the parse error `perr`. -/
def FailsToParse (w : World) (f : String) (perr : GoError) : Prop :=
  ∃ content, w.readFile (w.clean f) = .ok content
    ∧ ((toLower (filepathExt f) = ".json" ∧ w.jsonUnmarshal content = .error perr)
      ∨ ((toLower (filepathExt f) = ".yml" ∨ toLower (filepathExt f) = ".yaml")
          ∧ w.yamlUnmarshalStrict content = .error perr))

/-- The first per-job violation of the schema `pc`, in declaration order, is the parse
failure `perr` of the file `f` matched by the file discovery pattern `pattern` of the job
`sc`: everything checked before it passes, the files matched before `f` included. -/
def FirstViolationIsParseFailure (e : GoError) (w : World) (pc : PromConfig)
    (sc : ScrapeConfig) (pattern f : String) (perr : GoError) : Prop :=
  ∃ pre post sdpre sdpost fpre fpost mpre mpost,
    pc.ScrapeConfigs = pre ++ sc :: post
    ∧ (∀ j ∈ pre, checkScrapeConfig e w j = none)
    ∧ checkRelabel e sc.JobName sc.MetricRelabelConfigs = none
    ∧ checkAuthorization w sc = none
    ∧ checkTLSConfig w sc.HTTPClientConfig.TLSConfig = none
    ∧ sc.ServiceDiscoveryConfigs = sdpre ++ SDConfig.file (fpre ++ pattern :: fpost) :: sdpost
    ∧ (∀ c ∈ sdpre, checkSDConfig w sc.JobName c = none)
    ∧ checkPatterns w sc.JobName fpre = none
    ∧ w.glob pattern = .ok (mpre ++ f :: mpost)
    ∧ checkMatches w pattern mpre = none
    ∧ FailsToParse w f perr

/-- A parse error of the JSON decoder. -/
def sampleParseError : GoError := .new "unexpected end of JSON input"

/-- A filesystem in which every pattern matches the one file `sd/a.json`, whose content does
not parse. -/
def brokenFileWorld : World := sdWorld ["sd/a.json"] (.error sampleParseError)

/-- A scrape schema whose only job rewrites the metric name and has a file pattern. -/
def renameFileSchema : PromConfig :=
  { emptySchema with
    ScrapeConfigs := [{ renameJob with ServiceDiscoveryConfigs := [.file ["sd/*.json"]] }] }

/-- The file paths and patterns of one discovery configuration that `Validate` checks. -/
def sdPaths : SDConfig → List String
  | .kubernetes httpClientConfig =>
    [httpClientConfig.TLSConfig.CertFile, httpClientConfig.TLSConfig.KeyFile]
  | .file files => files
  | .static _ => []
  | .http _ => []

/-- The file paths and patterns of a sequence of discovery configurations. -/
def allSDPaths : List SDConfig → List String
  | [] => []
  | c :: cs => sdPaths c ++ allSDPaths cs

/-- The file paths and patterns of a job that `Validate` checks: the credentials file, the
client certificate and key, and those of its discovery configurations. -/
def jobPaths (sc : ScrapeConfig) : List String :=
  (match sc.HTTPClientConfig.Authorization with
   | some authorization => [authorization.CredentialsFile]
   | none => [])
  ++ [sc.HTTPClientConfig.TLSConfig.CertFile, sc.HTTPClientConfig.TLSConfig.KeyFile]
  ++ allSDPaths sc.ServiceDiscoveryConfigs

/-- The message `msg` contains the name of a job, a non-empty file path or pattern of a job
or the name of a file that such a pattern matches, or the endpoint of the target
allocator. -/
def NamesOffender (w : World) (cfg : Config) (msg : String) : Prop :=
  (∃ sc ∈ scrapeJobs cfg, contains msg sc.JobName
    ∨ ∃ p ∈ jobPaths sc, p ≠ ""
        ∧ (contains msg p
          ∨ match w.glob p with
            | .ok files => ∃ f ∈ files, contains msg f
            | .error _ => False))
  ∨ (match cfg.TargetAllocator with
     | some ta => contains msg ta.Endpoint
     | none => False)

instance (w : World) (p msg : String) :
    Decidable (match w.glob p with
      | .ok files => ∃ f ∈ files, contains msg f
      | .error _ => False) := by
  cases w.glob p <;> infer_instance

instance (cfg : Config) (msg : String) :
    Decidable (match cfg.TargetAllocator with
      | some ta => contains msg ta.Endpoint
      | none => False) := by
  cases cfg.TargetAllocator <;> infer_instance

instance (w : World) (cfg : Config) (msg : String) : Decidable (NamesOffender w cfg msg) := by
  unfold NamesOffender; infer_instance

/-- The message `msg` names the string `p` the way `%q` prints it: it contains the quoted
form of `p`, and `p` as it is whenever all characters of `p` are printable and none is a
double quote or a backslash. -/
def NamesQuoted (table : Char → Bool) (msg p : String) : Prop :=
  contains msg (quote table p) ∧ (Plain table p → contains msg p)

/-- The offending path of a TLS block: the client certificate when it is set and missing,
else the client key when it is set and missing, else the one of the two that is supplied
without the other. -/
def tlsOffender (w : World) (tlsConfig : TLSConfig) : Option String :=
  if (checkFile w tlsConfig.CertFile).isSome then some tlsConfig.CertFile
  else if (checkFile w tlsConfig.KeyFile).isSome then some tlsConfig.KeyFile
  else if tlsConfig.CertFile ≠ "" ∧ tlsConfig.KeyFile = "" then some tlsConfig.CertFile
  else if tlsConfig.KeyFile ≠ "" ∧ tlsConfig.CertFile = "" then some tlsConfig.KeyFile
  else none

/-- What the error `err` of the failing file discovery pattern `pattern` of the job
`jobName` names. A pattern that matches no file: the quoted pattern and the quoted job name.
A malformed pattern: nothing, the error is the one `filepath.Glob` returned. A matched file
`f` that fails its check: the error wraps the error of `checkSDFile` on `f` and repeats its
message. -/
def PatternErrorNames (w : World) (jobName pattern : String) (err : GoError) : Prop :=
  (w.glob pattern = .ok [] ∧ NamesQuoted w.printTable err.msg pattern
      ∧ NamesQuoted w.printTable err.msg jobName)
  ∨ w.glob pattern = .error err
  ∨ (∃ files f inner, w.glob pattern = .ok files ∧ f ∈ files ∧ checkSDFile w f = some inner
      ∧ err.wraps inner = true ∧ contains err.msg inner.msg)

/-- What the error `err` of the failing job `sc` names, by the check that failed: the
relabel check names the job; the credentials check the quoted credentials file; a TLS check,
of the job or of a Kubernetes discovery block, the quoted offending path of that block; a
file discovery pattern what `PatternErrorNames` says. -/
def JobErrorNames (e : GoError) (w : World) (sc : ScrapeConfig) (err : GoError) : Prop :=
  (checkRelabel e sc.JobName sc.MetricRelabelConfigs = some err
      ∧ contains err.msg sc.JobName)
  ∨ (∃ a, sc.HTTPClientConfig.Authorization = some a ∧ checkAuthorization w sc = some err
      ∧ (checkFile w a.CredentialsFile).isSome = true
      ∧ NamesQuoted w.printTable err.msg a.CredentialsFile)
  ∨ (∃ tlsConfig p,
      (tlsConfig = sc.HTTPClientConfig.TLSConfig
        ∨ ∃ c, SDConfig.kubernetes c ∈ sc.ServiceDiscoveryConfigs ∧ tlsConfig = c.TLSConfig)
      ∧ checkTLSConfig w tlsConfig = some err ∧ tlsOffender w tlsConfig = some p
      ∧ NamesQuoted w.printTable err.msg p)
  ∨ (∃ patterns pattern, SDConfig.file patterns ∈ sc.ServiceDiscoveryConfigs
      ∧ pattern ∈ patterns ∧ PatternErrorNames w sc.JobName pattern err)

/-- What the error `err` of the failing target allocator `ta` names: the endpoint as it is
when the endpoint is rejected, nothing when the collector ID is rejected, the message being
fixed. -/
def AllocatorErrorNames (w : World) (ta : TargetAllocator) (err : GoError) : Prop :=
  ((parseRequestURI w.printTable ta.Endpoint).isSome = true ∧ contains err.msg ta.Endpoint)
  ∨ (parseRequestURI w.printTable ta.Endpoint = none
      ∧ (ta.CollectorID = "" ∨ contains ta.CollectorID "$\x7b")
      ∧ err = .new "CollectorID is not a valid ID")

/-- A filesystem in which every pattern is malformed for `filepath.Glob`. -/
def badPatternWorld : World :=
  { emptyWorld with glob := fun _ => .error (.new "syntax error in pattern") }

/-- A job named `node` with a client certificate whose path holds double quotes, and no
client key. -/
def quotedCertJob : ScrapeConfig :=
  { plainJob "node" with
    HTTPClientConfig := { plainClient with TLSConfig := sampleTLS "/etc/\"tls\".pem" "" } }

/-- A scrape schema whose only job is `quotedCertJob`. -/
def quotedCertSchema : PromConfig := { emptySchema with ScrapeConfigs := [quotedCertJob] }

/-- The error of a pattern `sd/*.json` of the job `node` that matches no file. -/
def noMatchError : GoError :=
  .new "file \"sd/*.json\" for file_sd in scrape job \"node\" does not exist"

/-! ## Theorems -/

theorem string_length_eq_zero (s : String) : s.length = 0 ↔ s = "" := by
  cases s with
  | mk data =>
    constructor
    · intro h
      have hd : data = [] := List.length_eq_zero.mp h
      subst hd; rfl
    · intro h
      rw [h]; rfl

theorem stringLess_iff_lex (a b : List Char) :
    stringLess a b = true ↔ List.Lex (fun x y : Char => x < y) a b := by
  induction a generalizing b with
  | nil => cases b with
    | nil => simp [stringLess]
    | cons b bs => simp only [stringLess, true_iff]; exact List.Lex.nil
  | cons a as ih => cases b with
    | nil => simp [stringLess]
    | cons b bs =>
      have hab : a < b ↔ a.toNat < b.toNat := Iff.rfl
      simp only [stringLess]
      by_cases h1 : a.toNat < b.toNat
      · simp only [h1, if_true, true_iff]; exact List.Lex.rel (hab.2 h1)
      · by_cases h2 : b.toNat < a.toNat
        · simp only [h1, h2, if_true, if_false]
          constructor
          · intro h; cases h
          · intro h
            cases h with
            | rel h => exact absurd (hab.1 h) h1
            | cons h => exact absurd h2 h1
        · simp only [h1, h2, if_false]
          rw [ih]
          have hEq : a = b := by
            apply Char.ext; apply UInt32.ext
            have : a.toNat = b.toNat := by omega
            exact this
          subst hEq
          constructor
          · intro h; exact List.Lex.cons h
          · intro h
            cases h with
            | rel h => exact absurd (hab.1 h) h1
            | cons h => exact h

/-- The order `stringLess` is the lexicographic order `<` of strings. -/
theorem stringLess_iff_string (a b : String) : stringLess a.data b.data = true ↔ a < b := by
  rw [String.lt_iff_toList_lt, stringLess_iff_lex]
  exact Iff.rfl

/-- C1, as stated, fails: with the scrape schema unset and no target allocator, `Validate`
returns no error. -/
theorem presence_unset_counterexample :
    ¬ ∀ (e : GoError) (w : World) (cfg : Config),
      cfg.TargetAllocator = none →
      (cfg.PrometheusConfig = none
        ∨ ∃ pc, cfg.PrometheusConfig = some pc ∧ pc.ScrapeConfigs = []) →
      Validate e w cfg = some (.new "no Prometheus scrape_configs or target_allocator set") := by
  intro h
  have h1 := h sampleRenamingError emptyWorld bareConfig rfl (Or.inl rfl)
  exact absurd h1 (by decide)

/-- C1, amended: with no target allocator, a scrape schema that is set and has no scrape job
makes `Validate` return the presence error, and an unset scrape schema makes it return no
error. -/
theorem validate_presence (e : GoError) (w : World) (cfg : Config)
    (hTA : cfg.TargetAllocator = none) :
    (∀ pc, cfg.PrometheusConfig = some pc → pc.ScrapeConfigs = [] →
      Validate e w cfg = some (.new "no Prometheus scrape_configs or target_allocator set"))
    ∧ (cfg.PrometheusConfig = none → Validate e w cfg = none) := by
  constructor
  · intro pc hpc hjobs
    simp [Validate, validatePromConfig, hpc, hjobs, hTA]
  · intro hpc
    simp [Validate, hpc, hTA]

theorem validate_presence_witness :
    Validate sampleRenamingError emptyWorld (schemaConfig emptySchema)
        = some (.new "no Prometheus scrape_configs or target_allocator set")
      ∧ Validate sampleRenamingError emptyWorld bareConfig = none :=
  ⟨(validate_presence sampleRenamingError emptyWorld
      (schemaConfig emptySchema) rfl).1 emptySchema rfl rfl,
   (validate_presence sampleRenamingError emptyWorld bareConfig rfl).2 rfl⟩

theorem featureNames_sorted : List.Sorted (fun a b : String => a < b) featureNames := by
  have h : List.Pairwise (fun a b : String => stringLess a.data b.data = true) featureNames := by
    decide
  exact h.imp (fun hab => (stringLess_iff_string _ _).1 hab)

theorem unsupported_message_eq (pc : PromConfig) (h : (unsupportedFeatures pc).length ≠ 0) :
    "unsupported features:\n\t" ++ join (sortStrings (unsupportedFeatures pc)) "\n\t"
      = unsupportedMessage (featureNames.filter (featurePresent pc)) := by
  obtain ⟨jobs, rw, rr, rf, ⟨arc, amc⟩⟩ := pc
  rcases rw with _ | ⟨a1, l1⟩ <;> rcases rr with _ | ⟨a2, l2⟩ <;> rcases rf with _ | ⟨a3, l3⟩ <;>
    rcases arc with _ | ⟨a4, l4⟩ <;> rcases amc with _ | ⟨a5, l5⟩ <;>
    first
    | exact absurd rfl h
    | rfl

theorem unsupportedFeatures_nonempty (pc : PromConfig) (name : String)
    (h : featurePresent pc name = true) : (unsupportedFeatures pc).length ≠ 0 := by
  obtain ⟨jobs, rw, rr, rf, ⟨arc, amc⟩⟩ := pc
  rcases rw with _ | ⟨a1, l1⟩ <;> rcases rr with _ | ⟨a2, l2⟩ <;> rcases rf with _ | ⟨a3, l3⟩ <;>
    rcases arc with _ | ⟨a4, l4⟩ <;> rcases amc with _ | ⟨a5, l5⟩ <;>
    first
    | (simp [unsupportedFeatures]; done)
    | simp [featurePresent] at h

theorem featurePresent_mem (pc : PromConfig) (name : String)
    (h : featurePresent pc name = true) : name ∈ featureNames := by
  simp only [featurePresent, Bool.or_eq_true, Bool.and_eq_true, beq_iff_eq] at h
  simp only [featureNames, List.mem_cons, List.mem_singleton]
  rcases h with (((h | h) | h) | h) | h <;> simp [h.1]

/-- C2, as stated, fails: in a schema with no scrape job and no target allocator in which
rule files are present, `Validate` returns the presence error, not the unsupported-feature
error. -/
theorem presence_before_features_counterexample :
    ¬ ∀ (e : GoError) (w : World) (cfg : Config) (pc : PromConfig),
      cfg.PrometheusConfig = some pc →
      (∃ name, featurePresent pc name = true) →
      ∃ err, Validate e w cfg = some err
        ∧ err.msg = unsupportedMessage (featureNames.filter (featurePresent pc)) := by
  intro h
  obtain ⟨err, h1, h2⟩ := h sampleRenamingError emptyWorld (schemaConfig ruleSchema)
    ruleSchema rfl ⟨"rule_files", by decide⟩
  have h3 : Validate sampleRenamingError emptyWorld (schemaConfig ruleSchema)
      = some (.new "no Prometheus scrape_configs or target_allocator set") := by decide
  rw [h3] at h1
  cases h1
  exact absurd h2 (by decide)

/-- C2, amended: when the presence check passes (a scrape job or a target allocator exists)
and a disallowed feature is present, `Validate` returns the error whose message is
`unsupported features:` followed by the names of the features present, one per line, in
strictly ascending order and so once each, a name being listed exactly when its feature is
present. -/
theorem validate_unsupported (e : GoError) (w : World) (cfg : Config) (pc : PromConfig)
    (hpc : cfg.PrometheusConfig = some pc)
    (hPresence : pc.ScrapeConfigs ≠ [] ∨ cfg.TargetAllocator ≠ none)
    (hFeature : ∃ name, featurePresent pc name = true) :
    Validate e w cfg
        = some (.new (unsupportedMessage (featureNames.filter (featurePresent pc))))
      ∧ List.Sorted (fun a b : String => a < b) (featureNames.filter (featurePresent pc))
      ∧ ∀ name, name ∈ featureNames.filter (featurePresent pc) ↔ featurePresent pc name = true := by
  obtain ⟨name, hname⟩ := hFeature
  have hne := unsupportedFeatures_nonempty pc name hname
  refine ⟨?_, ?_, ?_⟩
  · have hP : ¬ (pc.ScrapeConfigs.length = 0 ∧ cfg.TargetAllocator = none) := by
      rintro ⟨h1, h2⟩
      rcases hPresence with h | h
      · exact h (List.length_eq_zero.mp h1)
      · exact h h2
    simp only [Validate, validatePromConfig, hpc, hP, if_false, hne, ne_eq, not_false_eq_true,
      if_true, unsupported_message_eq pc hne]
  · exact List.Pairwise.sublist (List.filter_sublist _) featureNames_sorted
  · intro n
    rw [List.mem_filter]
    exact ⟨fun h => h.2, fun h => ⟨featurePresent_mem pc n h, h⟩⟩

theorem validate_unsupported_witness :
    Validate sampleRenamingError emptyWorld (schemaConfig featureSchema)
      = some (.new "unsupported features:\n\tremote_write\n\trule_files") :=
  (validate_unsupported sampleRenamingError emptyWorld (schemaConfig featureSchema) featureSchema
    rfl (Or.inl (by decide)) ⟨"rule_files", by decide⟩).1

theorem contains_mid (a b c : String) : contains (a ++ b ++ c) b := by
  unfold contains
  refine ⟨a.data, c.data, ?_⟩
  simp [String.data_append]

theorem contains_append_left (s t sub : String) (h : contains s sub) : contains (s ++ t) sub := by
  unfold contains at *
  obtain ⟨a, c, hac⟩ := h
  refine ⟨a, c ++ t.data, ?_⟩
  simp [String.data_append, ← hac]

theorem contains_append_right (s t sub : String) (h : contains t sub) : contains (s ++ t) sub := by
  unfold contains at *
  obtain ⟨a, c, hac⟩ := h
  refine ⟨s.data ++ a, c, ?_⟩
  simp [String.data_append, ← hac]

theorem wraps_self (e : GoError) : e.wraps e = true := by
  cases e <;> simp [GoError.wraps]

theorem unsupportedFeatures_nil (pc : PromConfig) (h : ∀ name, featurePresent pc name = false) :
    unsupportedFeatures pc = [] := by
  have h1 : pc.RemoteWriteConfigs = [] := by
    have := h "remote_write"; simpa [featurePresent] using this
  have h2 : pc.RemoteReadConfigs = [] := by
    have := h "remote_read"; simpa [featurePresent] using this
  have h3 : pc.RuleFiles = [] := by
    have := h "rule_files"; simpa [featurePresent] using this
  have h4 : pc.AlertingConfig.AlertRelabelConfigs = [] := by
    have := h "alert_config.relabel_configs"; simpa [featurePresent] using this
  have h5 : pc.AlertingConfig.AlertmanagerConfigs = [] := by
    have := h "alert_config.alertmanagers"; simpa [featurePresent] using this
  simp [unsupportedFeatures, h1, h2, h3, h4, h5]

theorem checkRelabel_of_mem (e : GoError) (jobName : String) (rcs : List RelabelConfig)
    (h : ∃ rc ∈ rcs, rc.TargetLabel = "__name__") :
    checkRelabel e jobName rcs
      = some (.wrap ("error validating scrapeconfig for job " ++ jobName ++ ": " ++ e.msg) e) := by
  induction rcs with
  | nil => obtain ⟨rc, hrc, _⟩ := h; cases hrc
  | cons r rs ih =>
    by_cases hr : r.TargetLabel = "__name__"
    · simp [checkRelabel, hr]
    · obtain ⟨rc, hrc, hlabel⟩ := h
      have hmem : rc ∈ rs := by
        rcases List.mem_cons.mp hrc with heq | hin
        · exact absurd (heq ▸ hlabel) hr
        · exact hin
      simp [checkRelabel, hr, ih ⟨rc, hmem, hlabel⟩]

theorem checkScrapeConfigs_append_pass (e : GoError) (w : World) (pre rest : List ScrapeConfig)
    (h : ∀ j ∈ pre, checkScrapeConfig e w j = none) :
    checkScrapeConfigs e w (pre ++ rest) = checkScrapeConfigs e w rest := by
  induction pre with
  | nil => rfl
  | cons j js ih =>
    have hj := h j (List.mem_cons_self _ _)
    have hjs : ∀ k ∈ js, checkScrapeConfig e w k = none :=
      fun k hk => h k (List.mem_cons_of_mem _ hk)
    simp [checkScrapeConfigs, hj, ih hjs]

theorem checkScrapeConfigs_isSome (e : GoError) (w : World) (scs : List ScrapeConfig)
    (h : ∃ sc ∈ scs, (checkScrapeConfig e w sc).isSome = true) :
    (checkScrapeConfigs e w scs).isSome = true := by
  induction scs with
  | nil => obtain ⟨sc, hsc, _⟩ := h; cases hsc
  | cons j js ih =>
    cases hj : checkScrapeConfig e w j with
    | some err => simp [checkScrapeConfigs, hj]
    | none =>
      obtain ⟨sc, hsc, hsome⟩ := h
      have hmem : sc ∈ js := by
        rcases List.mem_cons.mp hsc with heq | hin
        · rw [heq, hj] at hsome; cases hsome
        · exact hin
      simp [checkScrapeConfigs, hj, ih ⟨sc, hmem, hsome⟩]

theorem validateTargetAllocatorConfig_none (w : World) (cfg : Config)
    (h : cfg.TargetAllocator = none) : validateTargetAllocatorConfig w cfg = none := by
  simp [validateTargetAllocatorConfig, h]

/-- The method `Validate` on a configuration with a scrape schema, by the three stages of
`validatePromConfig`. -/
theorem validate_schema (e : GoError) (w : World) (cfg : Config) (pc : PromConfig)
    (hpc : cfg.PrometheusConfig = some pc) :
    Validate e w cfg =
      if pc.ScrapeConfigs = [] ∧ cfg.TargetAllocator = none then
        some (.new "no Prometheus scrape_configs or target_allocator set")
      else if unsupportedFeatures pc ≠ [] then
        some (.new ("unsupported features:\n\t"
          ++ join (sortStrings (unsupportedFeatures pc)) "\n\t"))
      else
        match checkScrapeConfigs e w pc.ScrapeConfigs with
        | some err => some err
        | none => validateTargetAllocatorConfig w cfg := by
  by_cases h1 : pc.ScrapeConfigs = [] ∧ cfg.TargetAllocator = none
  · simp [Validate, validatePromConfig, hpc, h1]
  · by_cases h2 : unsupportedFeatures pc = []
    · cases h3 : checkScrapeConfigs e w pc.ScrapeConfigs with
      | some err => simp [Validate, validatePromConfig, hpc, h1, h2, h3]
      | none =>
        cases h4 : cfg.TargetAllocator with
        | none =>
          have h5 : pc.ScrapeConfigs ≠ [] := fun h => h1 ⟨h, h4⟩
          simp [Validate, validatePromConfig, hpc, h2, h3, h4, h5,
            validateTargetAllocatorConfig_none w cfg h4]
        | some ta => simp [Validate, validatePromConfig, hpc, h2, h3, h4]
    · simp [Validate, validatePromConfig, hpc, h1, h2]

/-- A scrape schema with a job makes `Validate` fail as soon as one of its jobs fails. -/
theorem validate_isSome_of_job (e : GoError) (w : World) (cfg : Config) (pc : PromConfig)
    (hpc : cfg.PrometheusConfig = some pc)
    (h : ∃ sc ∈ pc.ScrapeConfigs, (checkScrapeConfig e w sc).isSome = true) :
    (Validate e w cfg).isSome = true := by
  have hjobs := checkScrapeConfigs_isSome e w pc.ScrapeConfigs h
  obtain ⟨err, herr⟩ := Option.isSome_iff_exists.mp hjobs
  rw [validate_schema e w cfg pc hpc, herr]
  split
  · rfl
  · split <;> rfl

/-- When the presence check and the feature scan pass, `Validate` with a scrape schema
returns the error of the loop over the jobs, if it has one. -/
theorem validate_of_jobs_error (e : GoError) (w : World) (cfg : Config) (pc : PromConfig)
    (hpc : cfg.PrometheusConfig = some pc) (hjobs : pc.ScrapeConfigs ≠ [])
    (hf : unsupportedFeatures pc = []) (err : GoError)
    (herr : checkScrapeConfigs e w pc.ScrapeConfigs = some err) :
    Validate e w cfg = some err := by
  rw [validate_schema e w cfg pc hpc, herr]
  simp [hjobs, hf]

/-- C3: a scrape schema containing a job with a metric relabel rule whose target label is
`__name__` makes `Validate` return an error; when no disallowed feature is present and every
job declared before that job passes its checks, the error wraps `errRenamingDisallowed` and
its message contains the name of that job. -/
theorem validate_rename (e : GoError) (w : World) (cfg : Config) (pc : PromConfig)
    (hpc : cfg.PrometheusConfig = some pc)
    (pre post : List ScrapeConfig) (sc : ScrapeConfig)
    (hjobs : pc.ScrapeConfigs = pre ++ sc :: post)
    (hrule : ∃ rc ∈ sc.MetricRelabelConfigs, rc.TargetLabel = "__name__") :
    (Validate e w cfg).isSome = true
      ∧ ((∀ name, featurePresent pc name = false) →
          (∀ j ∈ pre, checkScrapeConfig e w j = none) →
          ∃ err, Validate e w cfg = some err ∧ err.wraps e = true
            ∧ contains err.msg sc.JobName) := by
  have hsc : checkScrapeConfig e w sc
      = some (.wrap ("error validating scrapeconfig for job " ++ sc.JobName ++ ": " ++ e.msg) e) := by
    simp [checkScrapeConfig, checkRelabel_of_mem e sc.JobName sc.MetricRelabelConfigs hrule]
  constructor
  · apply validate_isSome_of_job e w cfg pc hpc
    refine ⟨sc, ?_, ?_⟩
    · rw [hjobs]; simp
    · rw [hsc]; rfl
  · intro hno hpre
    refine ⟨.wrap ("error validating scrapeconfig for job " ++ sc.JobName ++ ": " ++ e.msg) e,
      validate_of_jobs_error e w cfg pc hpc ?_ (unsupportedFeatures_nil pc hno) _ ?_, ?_, ?_⟩
    · rw [hjobs]; simp
    · rw [hjobs, checkScrapeConfigs_append_pass e w pre _ hpre]
      simp [checkScrapeConfigs, hsc]
    · simp [GoError.wraps, wraps_self]
    · exact contains_append_left _ _ _ (contains_mid _ _ _)

/-- C3 at a schema whose only job, `node`, rewrites the metric name. -/
theorem validate_rename_witness :
    (Validate sampleRenamingError emptyWorld (schemaConfig renameSchema)).isSome = true
      ∧ ∃ err, Validate sampleRenamingError emptyWorld (schemaConfig renameSchema) = some err
          ∧ err.wraps sampleRenamingError = true ∧ contains err.msg "node" :=
  have h := validate_rename sampleRenamingError emptyWorld (schemaConfig renameSchema)
    renameSchema rfl [] [] renameJob rfl ⟨_, List.mem_singleton.mpr rfl, rfl⟩
  ⟨h.1, h.2 (by intro name; simp [featurePresent, renameSchema, emptySchema])
    (by intro j hj; cases hj)⟩

/-- C4: `checkTLSConfig` returns an error when exactly one of the client certificate path
and the client key path is non-empty, and no error when both are non-empty and both files
exist. -/
theorem checkTLSConfig_pair (w : World) (tlsConfig : TLSConfig) :
    (((tlsConfig.CertFile ≠ "" ∧ tlsConfig.KeyFile = "")
        ∨ (tlsConfig.CertFile = "" ∧ tlsConfig.KeyFile ≠ "")) →
      (checkTLSConfig w tlsConfig).isSome = true)
    ∧ (tlsConfig.CertFile ≠ "" → tlsConfig.KeyFile ≠ "" →
        w.stat tlsConfig.CertFile = none → w.stat tlsConfig.KeyFile = none →
        checkTLSConfig w tlsConfig = none) := by
  constructor
  · rintro (⟨hc, hk⟩ | ⟨hc, hk⟩)
    · have hlen : tlsConfig.CertFile.length > 0 :=
        Nat.pos_of_ne_zero (fun h => hc ((string_length_eq_zero _).1 h))
      cases hs : w.stat tlsConfig.CertFile with
      | some err => simp [checkTLSConfig, checkFile, hc, hs]
      | none => simp [checkTLSConfig, checkFile, hc, hk, hs, hlen]
    · have hlen : tlsConfig.KeyFile.length > 0 :=
        Nat.pos_of_ne_zero (fun h => hk ((string_length_eq_zero _).1 h))
      cases hs : w.stat tlsConfig.KeyFile with
      | some err => simp [checkTLSConfig, checkFile, hc, hk, hs]
      | none => simp [checkTLSConfig, checkFile, hc, hk, hs, hlen]
  · intro hc hk hsc hsk
    have hlc : tlsConfig.CertFile.length ≠ 0 := fun h => hc ((string_length_eq_zero _).1 h)
    have hlk : tlsConfig.KeyFile.length ≠ 0 := fun h => hk ((string_length_eq_zero _).1 h)
    simp [checkTLSConfig, checkFile, hc, hk, hsc, hsk, hlc, hlk]

/-- C4 at a certificate without a key, a key without a certificate, and a pair of paths
that both exist. -/
theorem checkTLSConfig_pair_witness :
    (checkTLSConfig fullWorld (sampleTLS "/etc/cert.pem" "")).isSome = true
      ∧ (checkTLSConfig emptyWorld (sampleTLS "" "/etc/key.pem")).isSome = true
      ∧ checkTLSConfig fullWorld (sampleTLS "/etc/cert.pem" "/etc/key.pem") = none :=
  ⟨(checkTLSConfig_pair fullWorld (sampleTLS "/etc/cert.pem" "")).1
      (Or.inl ⟨by decide, rfl⟩),
   (checkTLSConfig_pair emptyWorld (sampleTLS "" "/etc/key.pem")).1
      (Or.inr ⟨rfl, by decide⟩),
   (checkTLSConfig_pair fullWorld (sampleTLS "/etc/cert.pem" "/etc/key.pem")).2
      (by decide) (by decide) rfl rfl⟩

theorem checkSDConfigs_append_pass (w : World) (jobName : String) (pre rest : List SDConfig)
    (h : ∀ c ∈ pre, checkSDConfig w jobName c = none) :
    checkSDConfigs w jobName (pre ++ rest) = checkSDConfigs w jobName rest := by
  induction pre with
  | nil => rfl
  | cons c cs ih =>
    have hc := h c (List.mem_cons_self _ _)
    have hcs : ∀ k ∈ cs, checkSDConfig w jobName k = none :=
      fun k hk => h k (List.mem_cons_of_mem _ hk)
    simp [checkSDConfigs, hc, ih hcs]

theorem checkPatterns_append_pass (w : World) (jobName : String) (pre rest : List String)
    (h : checkPatterns w jobName pre = none) :
    checkPatterns w jobName (pre ++ rest) = checkPatterns w jobName rest := by
  induction pre with
  | nil => rfl
  | cons file files ih =>
    simp only [checkPatterns, List.cons_append] at h ⊢
    cases hg : w.glob file with
    | error err => simp [hg] at h
    | ok found =>
      simp only [hg] at h ⊢
      by_cases hlen : found.length ≠ 0
      · rw [if_pos hlen] at h ⊢
        cases hm : checkMatches w file found with
        | some err => simp [hm] at h
        | none =>
          simp only [hm] at h ⊢
          exact ih h
      · rw [if_neg hlen] at h
        cases h

theorem quoteBody_plain (table : Char → Bool) (l : List Char)
    (h : ∀ c ∈ l, c ≠ '"' ∧ c ≠ '\\' ∧ isPrint table c = true) : quoteBody table l = l := by
  induction l with
  | nil => rfl
  | cons c cs ih =>
    obtain ⟨h1, h2, h3⟩ := h c (List.mem_cons_self _ _)
    have hcs := ih (fun k hk => h k (List.mem_cons_of_mem _ hk))
    simp [quoteBody, appendEscapedRune, h1, h2, h3, hcs]

theorem contains_quote_of_plain (table : Char → Bool) (s : String) (h : Plain table s) :
    contains (quote table s) s := by
  unfold contains quote
  rw [quoteBody_plain table s.data (fun c hc => h c hc)]
  exact ⟨['"'], ['"'], by simp⟩

/-- The error of `Validate` when the first per-job violation is a pattern with no match. -/
theorem validate_empty_pattern (e : GoError) (w : World) (cfg : Config) (pc : PromConfig)
    (sc : ScrapeConfig) (pattern : String)
    (hpc : cfg.PrometheusConfig = some pc)
    (hno : ∀ name, featurePresent pc name = false)
    (hfirst : FirstViolationIsEmptyPattern e w pc sc pattern) :
    Validate e w cfg = some (.new ("file " ++ quote w.printTable pattern
      ++ " for file_sd in scrape job " ++ quote w.printTable sc.JobName ++ " does not exist")) := by
  obtain ⟨pre, post, sdpre, sdpost, fpre, fpost, hjobs, hpre, hrel, hauth, htls, hsd, hsdpre,
    hfpre, hglob⟩ := hfirst
  apply validate_of_jobs_error e w cfg pc hpc ?_ (unsupportedFeatures_nil pc hno)
  · rw [hjobs, checkScrapeConfigs_append_pass e w pre _ hpre]
    have hsc : checkScrapeConfig e w sc = some (.new ("file " ++ quote w.printTable pattern
        ++ " for file_sd in scrape job " ++ quote w.printTable sc.JobName ++ " does not exist")) := by
      simp only [checkScrapeConfig, hrel, hauth, htls, hsd]
      rw [checkSDConfigs_append_pass w sc.JobName sdpre _ hsdpre]
      simp only [checkSDConfigs, checkSDConfig]
      rw [checkPatterns_append_pass w sc.JobName fpre _ hfpre]
      simp [checkPatterns, hglob]
    simp [checkScrapeConfigs, hsc]
  · rw [hjobs]; simp

/-- C5, as stated, fails: the job name is printed with `%q`, so a name holding a double
quote appears escaped in the message and not as it is. -/
theorem quoted_job_name_counterexample :
    ¬ ∀ (e : GoError) (w : World) (cfg : Config) (pc : PromConfig) (sc : ScrapeConfig)
        (pattern : String),
      cfg.PrometheusConfig = some pc →
      (pc.ScrapeConfigs ≠ [] ∨ cfg.TargetAllocator ≠ none) →
      (∀ name, featurePresent pc name = false) →
      FirstViolationIsEmptyPattern e w pc sc pattern →
      ∃ err, Validate e w cfg = some err ∧ contains err.msg pattern
        ∧ contains err.msg sc.JobName := by
  intro h
  have hfirst : FirstViolationIsEmptyPattern sampleRenamingError emptyWorld
      (fileSchema "my\"job" "sd/*.json") (fileJob "my\"job" "sd/*.json") "sd/*.json" :=
    ⟨[], [], [], [], [], [], rfl, (fun j hj => by cases hj), rfl, rfl, rfl, rfl,
      (fun c hc => by cases hc), rfl, rfl⟩
  obtain ⟨err, h1, _, h3⟩ := h sampleRenamingError emptyWorld
    (schemaConfig (fileSchema "my\"job" "sd/*.json")) (fileSchema "my\"job" "sd/*.json")
    (fileJob "my\"job" "sd/*.json") "sd/*.json" rfl (Or.inl (by decide))
    (by intro name; simp [featurePresent, fileSchema, emptySchema]) hfirst
  have h4 : Validate sampleRenamingError emptyWorld
      (schemaConfig (fileSchema "my\"job" "sd/*.json"))
      = some (.new
          "file \"sd/*.json\" for file_sd in scrape job \"my\\\"job\" does not exist") := by
    decide
  rw [h4] at h1
  cases h1
  exact absurd h3 (by decide)

/-- C5, amended: when the presence and unsupported-feature checks pass and the first per-job
violation is a file discovery pattern that is a well-formed glob matching no file, `Validate`
returns an error whose message contains the pattern and the name of the declaring job in
their quoted form (`%q`); it contains the pattern, and the job name, as it is whenever all
its characters are printable and none is a double quote or a backslash. -/
theorem validate_empty_pattern_message (e : GoError) (w : World) (cfg : Config)
    (pc : PromConfig) (sc : ScrapeConfig) (pattern : String)
    (hpc : cfg.PrometheusConfig = some pc)
    (hno : ∀ name, featurePresent pc name = false)
    (hfirst : FirstViolationIsEmptyPattern e w pc sc pattern) :
    ∃ err, Validate e w cfg = some err
      ∧ contains err.msg (quote w.printTable pattern)
      ∧ contains err.msg (quote w.printTable sc.JobName)
      ∧ (Plain w.printTable pattern → contains err.msg pattern)
      ∧ (Plain w.printTable sc.JobName → contains err.msg sc.JobName) := by
  refine ⟨_, validate_empty_pattern e w cfg pc sc pattern hpc hno hfirst, ?_, ?_, ?_, ?_⟩
  · exact contains_append_left _ _ _ (contains_append_left _ _ _
      (contains_append_left _ _ _ (contains_append_right _ _ _ ⟨[], [], by simp⟩)))
  · exact contains_append_left _ _ _ (contains_append_right _ _ _ ⟨[], [], by simp⟩)
  · intro hplain
    exact contains_append_left _ _ _ (contains_append_left _ _ _
      (contains_append_left _ _ _ (contains_append_right _ _ _
        (contains_quote_of_plain _ _ hplain))))
  · intro hplain
    exact contains_append_left _ _ _ (contains_append_right _ _ _
      (contains_quote_of_plain _ _ hplain))

/-- C5 at the job `node` with the pattern `sd/*.json` on a filesystem with no file. -/
theorem validate_empty_pattern_message_witness :
    ∃ err, Validate sampleRenamingError emptyWorld (schemaConfig (fileSchema "node" "sd/*.json"))
        = some err
      ∧ contains err.msg "sd/*.json" ∧ contains err.msg "node" :=
  have h := validate_empty_pattern_message sampleRenamingError emptyWorld
    (schemaConfig (fileSchema "node" "sd/*.json")) (fileSchema "node" "sd/*.json")
    (fileJob "node" "sd/*.json") "sd/*.json" rfl
    (by intro name; simp [featurePresent, fileSchema, emptySchema])
    ⟨[], [], [], [], [], [], rfl, (fun j hj => by cases hj), rfl, rfl, rfl, rfl,
      (fun c hc => by cases hc), rfl, rfl⟩
  h.elim (fun err herr => ⟨err, herr.1, herr.2.2.2.1 (by decide), herr.2.2.2.2 (by decide)⟩)

/-- The method `Validate` once the checks of the scrape schema, if one is set, pass. -/
theorem validate_of_schema_pass (e : GoError) (w : World) (cfg : Config)
    (hschema : ∀ pc, cfg.PrometheusConfig = some pc → validatePromConfig e w cfg pc = none) :
    Validate e w cfg = validateTargetAllocatorConfig w cfg := by
  cases hpc : cfg.PrometheusConfig with
  | none =>
    cases hta : cfg.TargetAllocator with
    | none => simp [Validate, hpc, hta, validateTargetAllocatorConfig]
    | some ta => simp [Validate, hpc, hta]
  | some pc =>
    have h := hschema pc hpc
    cases hta : cfg.TargetAllocator with
    | none => simp [Validate, hpc, h, hta, validateTargetAllocatorConfig]
    | some ta => simp [Validate, hpc, h, hta]

/-- C6: with a target allocator and passing scrape-schema checks, an endpoint on which
`url.ParseRequestURI` fails makes `Validate` return an error whose message contains the
endpoint as it is; the endpoint `not a url` fails, and the endpoint `http://localhost:8080`
with the collector ID `col-1` yields no error. -/
theorem validate_endpoint (e : GoError) (w : World) (cfg : Config) (ta : TargetAllocator)
    (hta : cfg.TargetAllocator = some ta)
    (hschema : ∀ pc, cfg.PrometheusConfig = some pc → validatePromConfig e w cfg pc = none) :
    ((parseRequestURI w.printTable ta.Endpoint).isSome = true →
        ∃ err, Validate e w cfg = some err ∧ contains err.msg ta.Endpoint)
      ∧ (ta.Endpoint = "not a url" → (Validate e w cfg).isSome = true)
      ∧ (ta.Endpoint = "http://localhost:8080" → ta.CollectorID = "col-1" →
          Validate e w cfg = none) := by
  rw [validate_of_schema_pass e w cfg hschema]
  refine ⟨?_, ?_, ?_⟩
  · intro hfail
    obtain ⟨perr, hperr⟩ := Option.isSome_iff_exists.mp hfail
    refine ⟨.new ("TargetAllocator endpoint is not valid: " ++ ta.Endpoint), ?_, ?_⟩
    · simp [validateTargetAllocatorConfig, hta, hperr]
    · exact contains_append_right _ _ _ ⟨[], [], by simp⟩
  · intro hend
    have hparse : (parseRequestURI w.printTable "not a url").isSome = true := rfl
    obtain ⟨perr, hperr⟩ := Option.isSome_iff_exists.mp hparse
    simp [validateTargetAllocatorConfig, hta, hend, hperr]
  · intro hend hid
    have hparse : parseRequestURI w.printTable "http://localhost:8080" = none := rfl
    have hmark : ¬ contains "col-1" "$\x7b" := by decide
    simp [validateTargetAllocatorConfig, hta, hend, hid, hparse, hmark]

/-- C6 at the two endpoints of the scenario, with no scrape schema. -/
theorem validate_endpoint_witness :
    (∃ err, Validate sampleRenamingError emptyWorld
        (allocatorConfig (sampleAllocator "not a url" "col-1")) = some err
      ∧ contains err.msg "not a url")
    ∧ Validate sampleRenamingError emptyWorld
        (allocatorConfig (sampleAllocator "http://localhost:8080" "col-1")) = none :=
  ⟨(validate_endpoint sampleRenamingError emptyWorld
      (allocatorConfig (sampleAllocator "not a url" "col-1"))
      (sampleAllocator "not a url" "col-1") rfl (fun pc hpc => by cases hpc)).1 rfl,
   (validate_endpoint sampleRenamingError emptyWorld
      (allocatorConfig (sampleAllocator "http://localhost:8080" "col-1"))
      (sampleAllocator "http://localhost:8080" "col-1") rfl
      (fun pc hpc => by cases hpc)).2.2 rfl rfl⟩

/-- C7: with a target allocator whose endpoint parses as a request URI,
`validateTargetAllocatorConfig` returns an error exactly when the collector ID is empty or
contains the marker that opens a variable substitution. -/
theorem validateTargetAllocatorConfig_collectorID (w : World) (cfg : Config)
    (ta : TargetAllocator) (hta : cfg.TargetAllocator = some ta)
    (hparse : parseRequestURI w.printTable ta.Endpoint = none) :
    (validateTargetAllocatorConfig w cfg).isSome = true
      ↔ (ta.CollectorID = "" ∨ contains ta.CollectorID "$\x7b") := by
  by_cases hid : ta.CollectorID = "" ∨ contains ta.CollectorID "$\x7b"
  · simp only [validateTargetAllocatorConfig, hta, hparse, if_pos hid, iff_true, hid]
    rfl
  · simp only [validateTargetAllocatorConfig, hta, hparse, if_neg hid, iff_false, hid]
    simp

/-- C7 at an empty collector ID, an unresolved one, and a resolved one. -/
theorem validateTargetAllocatorConfig_collectorID_witness :
    (validateTargetAllocatorConfig emptyWorld
        (allocatorConfig (sampleAllocator "http://localhost:8080" ""))).isSome = true
    ∧ (validateTargetAllocatorConfig emptyWorld
        (allocatorConfig (sampleAllocator "http://localhost:8080" "$\x7bPOD_NAME\x7d"))).isSome
          = true
    ∧ ¬ (validateTargetAllocatorConfig emptyWorld
        (allocatorConfig (sampleAllocator "http://localhost:8080" "col-1"))).isSome = true :=
  ⟨(validateTargetAllocatorConfig_collectorID emptyWorld
      (allocatorConfig (sampleAllocator "http://localhost:8080" ""))
      (sampleAllocator "http://localhost:8080" "") rfl rfl).2 (Or.inl rfl),
   (validateTargetAllocatorConfig_collectorID emptyWorld
      (allocatorConfig (sampleAllocator "http://localhost:8080" "$\x7bPOD_NAME\x7d"))
      (sampleAllocator "http://localhost:8080" "$\x7bPOD_NAME\x7d") rfl rfl).2
      (Or.inr (by decide)),
   fun h => absurd ((validateTargetAllocatorConfig_collectorID emptyWorld
      (allocatorConfig (sampleAllocator "http://localhost:8080" "col-1"))
      (sampleAllocator "http://localhost:8080" "col-1") rfl rfl).1 h) (by decide)⟩

theorem checkTLSConfig_isSome_of_missing (w : World) (tlsConfig : TLSConfig)
    (h : (tlsConfig.CertFile ≠ "" ∧ (w.stat tlsConfig.CertFile).isSome = true)
      ∨ (tlsConfig.KeyFile ≠ "" ∧ (w.stat tlsConfig.KeyFile).isSome = true)) :
    (checkTLSConfig w tlsConfig).isSome = true := by
  rcases h with ⟨hc, hs⟩ | ⟨hk, hs⟩
  · obtain ⟨err, herr⟩ := Option.isSome_iff_exists.mp hs
    simp [checkTLSConfig, checkFile, hc, herr]
  · obtain ⟨err, herr⟩ := Option.isSome_iff_exists.mp hs
    cases hcert : checkFile w tlsConfig.CertFile with
    | some cerr => simp [checkTLSConfig, hcert]
    | none =>
      have hkey : checkFile w tlsConfig.KeyFile = some err := by simp [checkFile, hk, herr]
      simp [checkTLSConfig, hcert, hkey]

/-- C9: a scrape schema in which some job has a non-empty authorization credentials file,
client certificate file or client key file that `os.Stat` does not find makes `Validate`
return an error; and `checkFile` returns no error for the empty path. -/
theorem validate_missing_file (e : GoError) (w : World) (cfg : Config) (pc : PromConfig)
    (sc : ScrapeConfig) (hpc : cfg.PrometheusConfig = some pc) (hsc : sc ∈ pc.ScrapeConfigs)
    (hmissing :
      (∃ a, sc.HTTPClientConfig.Authorization = some a ∧ a.CredentialsFile ≠ ""
          ∧ (w.stat a.CredentialsFile).isSome = true)
      ∨ (sc.HTTPClientConfig.TLSConfig.CertFile ≠ ""
          ∧ (w.stat sc.HTTPClientConfig.TLSConfig.CertFile).isSome = true)
      ∨ (sc.HTTPClientConfig.TLSConfig.KeyFile ≠ ""
          ∧ (w.stat sc.HTTPClientConfig.TLSConfig.KeyFile).isSome = true)) :
    (Validate e w cfg).isSome = true ∧ checkFile w "" = none := by
  refine ⟨validate_isSome_of_job e w cfg pc hpc ⟨sc, hsc, ?_⟩, by simp [checkFile]⟩
  cases hrel : checkRelabel e sc.JobName sc.MetricRelabelConfigs with
  | some err => simp [checkScrapeConfig, hrel]
  | none =>
    cases hauth : checkAuthorization w sc with
    | some err => simp [checkScrapeConfig, hrel, hauth]
    | none =>
      have htls : (checkTLSConfig w sc.HTTPClientConfig.TLSConfig).isSome = true := by
        rcases hmissing with ⟨a, ha, hne, hs⟩ | hcert | hkey
        · obtain ⟨err, herr⟩ := Option.isSome_iff_exists.mp hs
          simp [checkAuthorization, ha, checkFile, hne, herr] at hauth
        · exact checkTLSConfig_isSome_of_missing w _ (Or.inl hcert)
        · exact checkTLSConfig_isSome_of_missing w _ (Or.inr hkey)
      obtain ⟨err, herr⟩ := Option.isSome_iff_exists.mp htls
      simp [checkScrapeConfig, hrel, hauth, herr]

/-- C9 at a job whose credentials file is missing from an empty filesystem. -/
theorem validate_missing_file_witness :
    (Validate sampleRenamingError emptyWorld
        (schemaConfig { emptySchema with ScrapeConfigs := [credentialsJob] })).isSome = true
      ∧ checkFile emptyWorld "" = none :=
  validate_missing_file sampleRenamingError emptyWorld
    (schemaConfig { emptySchema with ScrapeConfigs := [credentialsJob] })
    { emptySchema with ScrapeConfigs := [credentialsJob] } credentialsJob rfl
    (List.mem_singleton.mpr rfl)
    (Or.inl ⟨{ AuthType := "Bearer", CredentialsFile := "/etc/token" }, rfl, by decide, rfl⟩)

theorem firstFailure_append (a b : List (Option GoError)) :
    firstFailure (a ++ b) =
      match firstFailure a with
      | some err => some err
      | none => firstFailure b := by
  induction a with
  | nil => rfl
  | cons c cs ih =>
    cases c with
    | some err => rfl
    | none => simpa [firstFailure] using ih

theorem firstFailure_eq_none (l : List (Option GoError)) :
    firstFailure l = none ↔ ∀ c ∈ l, c = none := by
  induction l with
  | nil => simp [firstFailure]
  | cons c cs ih =>
    cases c with
    | some err => simp [firstFailure]
    | none => simp [firstFailure, ih]

theorem firstFailure_sdChecks (w : World) (jobName : String) (cs : List SDConfig) :
    firstFailure (cs.map (checkSDConfig w jobName)) = checkSDConfigs w jobName cs := by
  induction cs with
  | nil => rfl
  | cons c cs ih =>
    cases hc : checkSDConfig w jobName c with
    | some err => simp [firstFailure, checkSDConfigs, hc]
    | none => simp [firstFailure, checkSDConfigs, hc, ih]

theorem firstFailure_jobChecks (e : GoError) (w : World) (sc : ScrapeConfig) :
    firstFailure (jobChecks e w sc) = checkScrapeConfig e w sc := by
  unfold jobChecks checkScrapeConfig
  rw [firstFailure_append, firstFailure_sdChecks]
  cases checkRelabel e sc.JobName sc.MetricRelabelConfigs with
  | some err => rfl
  | none =>
    cases checkAuthorization w sc with
    | some err => rfl
    | none =>
      cases checkTLSConfig w sc.HTTPClientConfig.TLSConfig with
      | some err => rfl
      | none => rfl

theorem firstFailure_allJobChecks (e : GoError) (w : World) (scs : List ScrapeConfig) :
    firstFailure (allJobChecks e w scs) = checkScrapeConfigs e w scs := by
  induction scs with
  | nil => rfl
  | cons sc scs ih =>
    simp only [allJobChecks, checkScrapeConfigs, firstFailure_append, firstFailure_jobChecks, ih]

theorem firstFailure_allocatorChecks (w : World) (cfg : Config) :
    firstFailure (allocatorChecks w cfg) = validateTargetAllocatorConfig w cfg := by
  unfold allocatorChecks validateTargetAllocatorConfig
  cases cfg.TargetAllocator with
  | none => rfl
  | some ta =>
    simp only [endpointCheck, collectorIDCheck]
    cases parseRequestURI w.printTable ta.Endpoint with
    | some perr => rfl
    | none =>
      by_cases hid : ta.CollectorID = "" ∨ contains ta.CollectorID "$\x7b"
      · simp only [if_pos hid]; rfl
      · simp only [if_neg hid]; rfl

theorem filter_featurePresent_eq_nil (pc : PromConfig) :
    featureNames.filter (featurePresent pc) = [] ↔ unsupportedFeatures pc = [] := by
  constructor
  · intro h
    apply unsupportedFeatures_nil
    intro name
    cases hp : featurePresent pc name with
    | false => rfl
    | true =>
      have hmem : name ∈ featureNames.filter (featurePresent pc) :=
        List.mem_filter.mpr ⟨featurePresent_mem pc name hp, hp⟩
      rw [h] at hmem
      cases hmem
  · intro h
    rw [List.filter_eq_nil_iff]
    intro name _ hp
    exact unsupportedFeatures_nonempty pc name hp (by simp [h])

theorem firstFailure_orderedChecks (e : GoError) (w : World) (cfg : Config) (pc : PromConfig)
    (hpc : cfg.PrometheusConfig = some pc) :
    firstFailure (orderedChecks e w cfg) = Validate e w cfg := by
  rw [validate_schema e w cfg pc hpc]
  unfold orderedChecks
  rw [List.append_assoc, firstFailure_append, firstFailure_append, firstFailure_allJobChecks,
    firstFailure_allocatorChecks]
  have hjobs : scrapeJobs cfg = pc.ScrapeConfigs := by simp [scrapeJobs, hpc]
  by_cases h1 : pc.ScrapeConfigs = [] ∧ cfg.TargetAllocator = none
  · simp [firstFailure, presenceCheck, hjobs, h1]
  · by_cases h2 : unsupportedFeatures pc = []
    · have h3 : featureNames.filter (featurePresent pc) = [] :=
        (filter_featurePresent_eq_nil pc).2 h2
      simp only [firstFailure, presenceCheck, featureCheck, hjobs, hpc, h1, h2, h3, if_false,
        ne_eq, not_true_eq_false]
    · have h3 : ¬ featureNames.filter (featurePresent pc) = [] :=
        fun h => h2 ((filter_featurePresent_eq_nil pc).1 h)
      have h4 : (unsupportedFeatures pc).length ≠ 0 := fun h => h2 (List.length_eq_zero.mp h)
      simp only [firstFailure, presenceCheck, featureCheck, hjobs, hpc, h1, h2, h3, if_false,
        ne_eq, not_false_eq_true, if_true, unsupported_message_eq pc h4]

/-- C8, as stated, fails: with the scrape schema unset and no target allocator the presence
check of the fixed order fails, and `Validate` returns no error. -/
theorem unset_schema_order_counterexample :
    ¬ ∀ (e : GoError) (w : World) (cfg : Config),
      Validate e w cfg = firstFailure (orderedChecks e w cfg)
        ∧ (Validate e w cfg = none ↔ ∀ c ∈ orderedChecks e w cfg, c = none) := by
  intro h
  have h1 := (h sampleRenamingError emptyWorld bareConfig).1
  exact absurd h1 (by decide)

/-- C8, amended: checks (1) to (3) run only when a scrape schema is set. With a scrape
schema, the error of `Validate` is that of the first failing check in the order presence,
unsupported features, per job relabel target, credentials file, TLS and discovery
configurations, then target allocator endpoint and collector ID; without one, it is that of
the first failing target allocator check. `Validate` returns no error exactly when none of
the checks that run fails. -/
theorem validate_first_failure (e : GoError) (w : World) (cfg : Config) :
    Validate e w cfg = firstFailure (checksRun e w cfg)
      ∧ (Validate e w cfg = none ↔ ∀ c ∈ checksRun e w cfg, c = none) := by
  have h : Validate e w cfg = firstFailure (checksRun e w cfg) := by
    cases hpc : cfg.PrometheusConfig with
    | none =>
      rw [validate_of_schema_pass e w cfg (fun pc h => by rw [hpc] at h; cases h)]
      simp only [checksRun, hpc, firstFailure_allocatorChecks]
    | some pc =>
      simp only [checksRun, hpc]
      exact (firstFailure_orderedChecks e w cfg pc hpc).symm
  exact ⟨h, by rw [h]; exact firstFailure_eq_none _⟩

/-- C8 at a configuration with a scrape schema and at one with only a target allocator. -/
theorem validate_first_failure_witness :
    Validate sampleRenamingError emptyWorld (schemaConfig (fileSchema "node" "sd/*.json"))
        = firstFailure (orderedChecks sampleRenamingError emptyWorld
            (schemaConfig (fileSchema "node" "sd/*.json")))
      ∧ Validate sampleRenamingError emptyWorld
          (allocatorConfig (sampleAllocator "not a url" "col-1"))
        = firstFailure (allocatorChecks emptyWorld
            (allocatorConfig (sampleAllocator "not a url" "col-1"))) :=
  ⟨(validate_first_failure sampleRenamingError emptyWorld
      (schemaConfig (fileSchema "node" "sd/*.json"))).1,
   (validate_first_failure sampleRenamingError emptyWorld
      (allocatorConfig (sampleAllocator "not a url" "col-1"))).1⟩

/-- With an absent or empty `config` sub-tree, `Unmarshal` returns right after the generic
decode and does not read the `target_allocator` sub-tree. -/
theorem unmarshal_empty_config (d : Decoders) (cfg : Config) (tree : StringMap)
    (h : sub d.formatValue tree prometheusConfigKey = .ok []) :
    Unmarshal d cfg (some tree) =
      match d.decode tree cfg with
      | .error err =>
        .error (.wrap ("prometheus receiver failed to parse config: " ++ err.msg) err)
      | .ok cfg1 => .ok cfg1 := by
  cases hd : d.decode tree cfg with
  | error err => simp [Unmarshal, hd]
  | ok cfg1 => simp [Unmarshal, hd, h]

/-- C10, at a tree with a non-empty `http_sd_config` block and no `config` key: `Unmarshal`
succeeds and leaves `TargetAllocator.HTTPSDConfig` unset, while on the same tree with a
non-empty `config` sub-tree added it sets the field to the decoding of the block with the
placeholder URL. -/
theorem unmarshal_skips_http_sd_config :
    (Unmarshal sampleDecoders bareConfig (some allocatorOnlyTree)).succeeded = true
      ∧ httpSDConfigOf (Unmarshal sampleDecoders bareConfig (some allocatorOnlyTree)) = none
      ∧ httpSDConfigOf (Unmarshal sampleDecoders bareConfig (some allocatorAndConfigTree))
          = some { URL := "http://placeholder",
                   settings := [("yaml", "url: http://placeholder\nrefresh_interval: 60s\n")] } := by
  refine ⟨?_, ?_, ?_⟩ <;> decide

theorem checkGroups_first_nil (i : Nat) (pre post : List (Option Group))
    (h : ∀ x ∈ pre, x ≠ none) :
    checkGroups i (pre ++ none :: post)
      = some (.new ("nil target group item found (index " ++ toString (i + pre.length) ++ ")")) := by
  induction pre generalizing i with
  | nil => simp [checkGroups]
  | cons x xs ih =>
    have hx := h x (List.mem_cons_self _ _)
    have hxs : ∀ y ∈ xs, y ≠ none := fun y hy => h y (List.mem_cons_of_mem _ hy)
    cases x with
    | none => exact absurd rfl hx
    | some g =>
      have hlen : i + 1 + xs.length = i + (xs.length + 1) := by omega
      show checkGroups (i + 1) (xs ++ none :: post) = _
      rw [ih (i + 1) hxs, hlen]
      rfl

theorem checkSDFile_of_parsesInto (w : World) (filename : String)
    (groups : List (Option Group)) (h : ParsesInto w filename groups) :
    checkSDFile w filename = checkGroups 0 groups := by
  obtain ⟨content, hread, hparse⟩ := h
  rcases hparse with ⟨hext, hjson⟩ | ⟨hext, hyaml⟩
  · simp [checkSDFile, hread, hext, hjson]
  · have hnot : toLower (filepathExt filename) ≠ ".json" := by
      rcases hext with h1 | h1 <;> rw [h1] <;> decide
    simp [checkSDFile, hread, hnot, hext, hyaml]

/-- C11, as stated, fails: a parsed sequence whose only element is a structurally empty
group, not a nil one, passes `checkSDFile`. -/
theorem empty_group_counterexample :
    ¬ ∀ (w : World) (filename : String) (pre post : List (Option Group)) (g : Option Group),
      ParsesInto w filename (pre ++ g :: post) →
      (∀ x ∈ pre, nilOrEmpty x = false) → nilOrEmpty g = true →
      ∃ err, checkSDFile w filename = some err ∧ contains err.msg (toString pre.length) := by
  intro h
  obtain ⟨err, herr, _⟩ := h (sdWorld [] (.ok [some emptyGroup])) "sd/a.json" [] []
    (some emptyGroup) ⟨"content", rfl, Or.inl ⟨by decide, rfl⟩⟩ (fun x hx => by cases hx) rfl
  have hnone : checkSDFile (sdWorld [] (.ok [some emptyGroup])) "sd/a.json" = none := by decide
  rw [hnone] at herr
  cases herr

theorem checkGroups_no_nil (i : Nat) (groups : List (Option Group))
    (h : ∀ x ∈ groups, x ≠ none) : checkGroups i groups = none := by
  induction groups generalizing i with
  | nil => rfl
  | cons x xs ih =>
    have hx := h x (List.mem_cons_self _ _)
    have hxs : ∀ y ∈ xs, y ≠ none := fun y hy => h y (List.mem_cons_of_mem _ hy)
    cases x with
    | none => exact absurd rfl hx
    | some g =>
      show checkGroups (i + 1) xs = none
      exact ih (i + 1) hxs

/-- C11, amended: for a readable discovery file with a supported extension whose content
parses into a sequence of target groups, `checkSDFile` returns the error
`nil target group item found (index i)`, with `i` the index of the first nil group, when the
sequence contains a nil group, and returns no error when it contains none: a structurally
empty group that is not nil is not an error. -/
theorem checkSDFile_nil_group (w : World) (filename : String) (groups : List (Option Group))
    (hparse : ParsesInto w filename groups) :
    (∀ pre post, groups = pre ++ none :: post → (∀ x ∈ pre, x ≠ none) →
        ∃ err, checkSDFile w filename = some err
          ∧ err.msg = "nil target group item found (index " ++ toString pre.length ++ ")"
          ∧ contains err.msg (toString pre.length))
      ∧ ((∀ x ∈ groups, x ≠ none) → checkSDFile w filename = none)
      ∧ (∀ g, some g ∈ groups → g.structurallyEmpty = true → (∀ x ∈ groups, x ≠ none) →
          checkSDFile w filename = none) := by
  have hfile := checkSDFile_of_parsesInto w filename groups hparse
  refine ⟨?_, ?_, ?_⟩
  · intro pre post hgroups hpre
    refine ⟨.new ("nil target group item found (index " ++ toString pre.length ++ ")"),
      ?_, rfl, contains_mid _ _ _⟩
    rw [hfile, hgroups, checkGroups_first_nil 0 pre post hpre, Nat.zero_add]
  · intro hall
    rw [hfile, checkGroups_no_nil 0 groups hall]
  · intro g _ _ hall
    rw [hfile, checkGroups_no_nil 0 groups hall]

/-- C11 at a JSON file whose content parses into a group followed by a nil group, and at one
whose content parses into a group followed by a structurally empty group. -/
theorem checkSDFile_nil_group_witness :
    (∃ err, checkSDFile (sdWorld [] (.ok [some sampleGroup, none])) "sd/a.json" = some err
      ∧ err.msg = "nil target group item found (index 1)")
    ∧ checkSDFile (sdWorld [] (.ok [some sampleGroup, some emptyGroup])) "sd/a.json" = none :=
  ⟨((checkSDFile_nil_group (sdWorld [] (.ok [some sampleGroup, none])) "sd/a.json"
      [some sampleGroup, none] ⟨"content", rfl, Or.inl ⟨by decide, rfl⟩⟩).1
      [some sampleGroup] [] rfl
      (fun x hx => by rw [List.mem_singleton.mp hx]; exact Option.some_ne_none _)).elim
      (fun err herr => ⟨err, herr.1, herr.2.1⟩),
   (checkSDFile_nil_group (sdWorld [] (.ok [some sampleGroup, some emptyGroup])) "sd/a.json"
      [some sampleGroup, some emptyGroup] ⟨"content", rfl, Or.inl ⟨by decide, rfl⟩⟩).2.2
      emptyGroup (by decide) rfl (by decide)⟩

/-- C12, as stated, fails: the extension `.JSON` is a string other than `.json`, `.yml` and
`.yaml`, yet the file is parsed as JSON and not rejected. -/
theorem upper_case_extension_counterexample :
    ¬ ∀ (w : World) (filename content : String),
      w.readFile (w.clean filename) = .ok content →
      (filepathExt filename = ".json" →
          checkSDFile w filename = afterParse "json" (w.jsonUnmarshal content))
        ∧ (filepathExt filename = ".yml" ∨ filepathExt filename = ".yaml" →
          checkSDFile w filename = afterParse "yaml" (w.yamlUnmarshalStrict content))
        ∧ (filepathExt filename ≠ ".json" ∧ filepathExt filename ≠ ".yml"
            ∧ filepathExt filename ≠ ".yaml" →
          checkSDFile w filename
            = some (.new ("invalid file extension: "
                ++ quote w.printTable (filepathExt filename)))) := by
  intro h
  have h1 := (h (sdWorld [] (.ok [some sampleGroup])) "sd/targets.JSON" "content" rfl).2.2
    (by decide)
  exact absurd h1 (by decide)

/-- C12, amended: the extension is compared after `strings.ToLower`. A readable file whose
lower-cased extension is `.json` is parsed as JSON, one whose lower-cased extension is `.yml`
or `.yaml` as strict YAML, and for any other lower-cased extension `checkSDFile` returns the
`invalid file extension` error on the extension as written, whatever the parsers do. -/
theorem checkSDFile_by_extension (w : World) (filename content : String)
    (hread : w.readFile (w.clean filename) = .ok content) :
    (toLower (filepathExt filename) = ".json" →
        checkSDFile w filename = afterParse "json" (w.jsonUnmarshal content))
      ∧ (toLower (filepathExt filename) = ".yml" ∨ toLower (filepathExt filename) = ".yaml" →
        checkSDFile w filename = afterParse "yaml" (w.yamlUnmarshalStrict content))
      ∧ (toLower (filepathExt filename) ≠ ".json" ∧ toLower (filepathExt filename) ≠ ".yml"
          ∧ toLower (filepathExt filename) ≠ ".yaml" →
        checkSDFile w filename
          = some (.new ("invalid file extension: "
              ++ quote w.printTable (filepathExt filename)))) := by
  refine ⟨?_, ?_, ?_⟩
  · intro hext
    cases hj : w.jsonUnmarshal content with
    | error err => simp [checkSDFile, hread, hext, hj, afterParse]
    | ok groups => simp [checkSDFile, hread, hext, hj, afterParse]
  · intro hext
    have hnot : toLower (filepathExt filename) ≠ ".json" := by
      rcases hext with h1 | h1 <;> rw [h1] <;> decide
    cases hy : w.yamlUnmarshalStrict content with
    | error err => simp [checkSDFile, hread, hnot, hext, hy, afterParse]
    | ok groups => simp [checkSDFile, hread, hnot, hext, hy, afterParse]
  · rintro ⟨h1, h2, h3⟩
    simp [checkSDFile, hread, h1, h2, h3]

/-- C12 at a file with the extension `.JSON`, one with `.yml` and one with `.txt`. -/
theorem checkSDFile_by_extension_witness :
    checkSDFile (sdWorld [] (.ok [none])) "sd/targets.JSON"
        = some (.new "nil target group item found (index 0)")
      ∧ checkSDFile (sdWorld [] (.error (.new "yaml: line 1"))) "sd/targets.yml"
        = some (.wrap "error in unmarshaling yaml file extension: yaml: line 1"
            (.new "yaml: line 1"))
      ∧ checkSDFile (sdWorld [] (.ok [none])) "sd/targets.txt"
        = some (.new "invalid file extension: \".txt\"") :=
  ⟨(checkSDFile_by_extension (sdWorld [] (.ok [none])) "sd/targets.JSON" "content" rfl).1
      (by decide),
   (checkSDFile_by_extension (sdWorld [] (.error (.new "yaml: line 1"))) "sd/targets.yml"
      "content" rfl).2.1 (Or.inl (by decide)),
   (checkSDFile_by_extension (sdWorld [] (.ok [none])) "sd/targets.txt" "content" rfl).2.2
      (by decide)⟩

/-- C14, as stated, fails: `url.ParseRequestURI` rejects the empty string, so a target
allocator with an unset endpoint and the collector ID `col-1` does not pass. -/
theorem unset_endpoint_counterexample :
    ¬ ∀ (e : GoError) (w : World) (cfg : Config) (ta : TargetAllocator),
      cfg.TargetAllocator = some ta → ta.Endpoint = "" →
      ta.CollectorID ≠ "" → ¬ contains ta.CollectorID "$\x7b" →
      (∀ pc, cfg.PrometheusConfig = some pc → validatePromConfig e w cfg pc = none) →
      Validate e w cfg = none := by
  intro h
  have h1 := h sampleRenamingError emptyWorld (allocatorConfig (sampleAllocator "" "col-1"))
    (sampleAllocator "" "col-1") rfl rfl (by decide) (by decide) (fun pc hpc => by cases hpc)
  exact absurd h1 (by decide)

/-- C14, amended: the endpoint check applies to an unset endpoint too. For every
configuration with a target allocator whose endpoint is the empty string and whose
scrape-schema checks, if a scrape schema is set, pass, `Validate` returns the error
`TargetAllocator endpoint is not valid: `, whatever the collector ID is. -/
theorem validate_unset_endpoint (e : GoError) (w : World) (cfg : Config) (ta : TargetAllocator)
    (hta : cfg.TargetAllocator = some ta) (hend : ta.Endpoint = "")
    (hschema : ∀ pc, cfg.PrometheusConfig = some pc → validatePromConfig e w cfg pc = none) :
    Validate e w cfg = some (.new "TargetAllocator endpoint is not valid: ") := by
  rw [validate_of_schema_pass e w cfg hschema]
  have hparse : (parseRequestURI w.printTable "").isSome = true := rfl
  obtain ⟨perr, hperr⟩ := Option.isSome_iff_exists.mp hparse
  simp only [validateTargetAllocatorConfig, hta, hend, hperr]
  rfl

/-- C14 at a target allocator with no endpoint and the collector ID `col-1`. -/
theorem validate_unset_endpoint_witness :
    Validate sampleRenamingError emptyWorld (allocatorConfig (sampleAllocator "" "col-1"))
      = some (.new "TargetAllocator endpoint is not valid: ") :=
  validate_unset_endpoint sampleRenamingError emptyWorld
    (allocatorConfig (sampleAllocator "" "col-1")) (sampleAllocator "" "col-1") rfl rfl
    (fun pc hpc => by cases hpc)

theorem checkMatches_append_pass (w : World) (file : String) (pre rest : List String)
    (h : checkMatches w file pre = none) :
    checkMatches w file (pre ++ rest) = checkMatches w file rest := by
  induction pre with
  | nil => rfl
  | cons f fs ih =>
    simp only [checkMatches, List.cons_append] at h ⊢
    cases hf : checkSDFile w f with
    | some err => simp [hf] at h
    | none =>
      simp only [hf] at h ⊢
      exact ih h

theorem checkSDFile_of_failsToParse (w : World) (f : String) (perr : GoError)
    (h : FailsToParse w f perr) :
    ∃ format, checkSDFile w f
      = some (.wrap ("error in unmarshaling " ++ format ++ " file extension: " ++ perr.msg)
          perr) := by
  obtain ⟨content, hread, hparse⟩ := h
  rcases hparse with ⟨hext, hjson⟩ | ⟨hext, hyaml⟩
  · exact ⟨"json", by simp [checkSDFile, hread, hext, hjson]⟩
  · have hnot : toLower (filepathExt f) ≠ ".json" := by
      rcases hext with h1 | h1 <;> rw [h1] <;> decide
    exact ⟨"yaml", by simp [checkSDFile, hread, hnot, hext, hyaml]⟩

/-- The error of `Validate` when the first per-job violation is a parse failure. -/
theorem validate_parse_failure (e : GoError) (w : World) (cfg : Config) (pc : PromConfig)
    (sc : ScrapeConfig) (pattern f : String) (perr : GoError)
    (hpc : cfg.PrometheusConfig = some pc)
    (hno : ∀ name, featurePresent pc name = false)
    (hfirst : FirstViolationIsParseFailure e w pc sc pattern f perr) :
    ∃ format, Validate e w cfg
      = some (.wrap ("checking SD file " ++ quote w.printTable pattern ++ ": "
          ++ ("error in unmarshaling " ++ format ++ " file extension: " ++ perr.msg))
          (.wrap ("error in unmarshaling " ++ format ++ " file extension: " ++ perr.msg)
            perr)) := by
  obtain ⟨pre, post, sdpre, sdpost, fpre, fpost, mpre, mpost, hjobs, hpre, hrel, hauth, htls,
    hsd, hsdpre, hfpre, hglob, hmpre, hfail⟩ := hfirst
  obtain ⟨format, hfile⟩ := checkSDFile_of_failsToParse w f perr hfail
  refine ⟨format, validate_of_jobs_error e w cfg pc hpc ?_ (unsupportedFeatures_nil pc hno) _ ?_⟩
  · rw [hjobs]; simp
  · rw [hjobs, checkScrapeConfigs_append_pass e w pre _ hpre]
    have hlen : (mpre ++ f :: mpost).length ≠ 0 := by simp
    have hsc : checkScrapeConfig e w sc
        = some (.wrap ("checking SD file " ++ quote w.printTable pattern ++ ": "
            ++ ("error in unmarshaling " ++ format ++ " file extension: " ++ perr.msg))
            (.wrap ("error in unmarshaling " ++ format ++ " file extension: " ++ perr.msg)
              perr)) := by
      simp only [checkScrapeConfig, hrel, hauth, htls, hsd]
      rw [checkSDConfigs_append_pass w sc.JobName sdpre _ hsdpre]
      simp only [checkSDConfigs, checkSDConfig]
      rw [checkPatterns_append_pass w sc.JobName fpre _ hfpre]
      simp only [checkPatterns, hglob, if_pos hlen]
      rw [checkMatches_append_pass w pattern mpre _ hmpre]
      simp only [checkMatches, hfile, GoError.msg]
    simp [checkScrapeConfigs, hsc]

set_option maxRecDepth 4096 in
/-- C13, as stated, fails twice. A job that fails an earlier check returns that error, which
does not wrap the parse error; and when the parse failure is the first violation, the message
holds the pattern `sd/*.json`, not the name of the matched file `sd/a.json`. -/
theorem matched_file_name_counterexample :
    (¬ ∀ (e : GoError) (w : World) (cfg : Config) (pc : PromConfig) (sc : ScrapeConfig)
        (patterns files : List String) (pattern f : String) (perr : GoError),
      cfg.PrometheusConfig = some pc → sc ∈ pc.ScrapeConfigs →
      SDConfig.file patterns ∈ sc.ServiceDiscoveryConfigs → pattern ∈ patterns →
      w.glob pattern = .ok files → f ∈ files → FailsToParse w f perr →
      ∃ err, Validate e w cfg = some err ∧ contains err.msg f ∧ err.wraps perr = true)
    ∧ (¬ ∀ (e : GoError) (w : World) (cfg : Config) (pc : PromConfig) (sc : ScrapeConfig)
        (pattern f : String) (perr : GoError),
      cfg.PrometheusConfig = some pc → (∀ name, featurePresent pc name = false) →
      FirstViolationIsParseFailure e w pc sc pattern f perr →
      ∃ err, Validate e w cfg = some err ∧ contains err.msg f) := by
  constructor
  · intro h
    obtain ⟨err, h1, _, h3⟩ := h sampleRenamingError brokenFileWorld
      (schemaConfig renameFileSchema) renameFileSchema
      { renameJob with ServiceDiscoveryConfigs := [.file ["sd/*.json"]] }
      ["sd/*.json"] ["sd/a.json"] "sd/*.json" "sd/a.json" sampleParseError rfl
      (List.mem_singleton.mpr rfl) (List.mem_singleton.mpr rfl) (List.mem_singleton.mpr rfl)
      rfl (List.mem_singleton.mpr rfl) ⟨"content", rfl, Or.inl ⟨by decide, rfl⟩⟩
    have h4 : Validate sampleRenamingError brokenFileWorld (schemaConfig renameFileSchema)
        = some (.wrap ("error validating scrapeconfig for job node: "
            ++ sampleRenamingError.msg) sampleRenamingError) := by decide
    rw [h4] at h1
    cases h1
    exact absurd h3 (by decide)
  · intro h
    obtain ⟨err, h1, h2⟩ := h sampleRenamingError brokenFileWorld
      (schemaConfig (fileSchema "node" "sd/*.json")) (fileSchema "node" "sd/*.json")
      (fileJob "node" "sd/*.json") "sd/*.json" "sd/a.json" sampleParseError rfl
      (by intro name; simp [featurePresent, fileSchema, emptySchema])
      ⟨[], [], [], [], [], [], [], [], rfl, (fun j hj => by cases hj), rfl, rfl, rfl, rfl,
        (fun c hc => by cases hc), rfl, rfl, rfl, ⟨"content", rfl, Or.inl ⟨by decide, rfl⟩⟩⟩
    have h4 : Validate sampleRenamingError brokenFileWorld
        (schemaConfig (fileSchema "node" "sd/*.json"))
        = some (.wrap ("checking SD file \"sd/*.json\": error in unmarshaling json file "
            ++ "extension: unexpected end of JSON input")
            (.wrap "error in unmarshaling json file extension: unexpected end of JSON input"
              sampleParseError)) := by decide
    rw [h4] at h1
    cases h1
    exact absurd h2 (by decide)

/-- C13, amended: when the presence and unsupported-feature checks pass and the first
per-job violation is the parse failure of a file matched by a file discovery pattern, the
error returned by `Validate` wraps the underlying parse error and its message contains the
message of that error. -/
theorem validate_parse_failure_wraps (e : GoError) (w : World) (cfg : Config)
    (pc : PromConfig) (sc : ScrapeConfig) (pattern f : String) (perr : GoError)
    (hpc : cfg.PrometheusConfig = some pc)
    (hno : ∀ name, featurePresent pc name = false)
    (hfirst : FirstViolationIsParseFailure e w pc sc pattern f perr) :
    ∃ err, Validate e w cfg = some err ∧ err.wraps perr = true
      ∧ contains err.msg perr.msg := by
  obtain ⟨format, hval⟩ := validate_parse_failure e w cfg pc sc pattern f perr hpc hno hfirst
  refine ⟨_, hval, ?_, ?_⟩
  · simp [GoError.wraps, wraps_self]
  · exact contains_append_right _ _ _ (contains_append_right _ _ _ ⟨[], [], by simp⟩)

/-- C13 at the job `node` whose pattern `sd/*.json` matches a file that does not parse. -/
theorem validate_parse_failure_wraps_witness :
    ∃ err, Validate sampleRenamingError brokenFileWorld
        (schemaConfig (fileSchema "node" "sd/*.json")) = some err
      ∧ err.wraps sampleParseError = true
      ∧ contains err.msg "unexpected end of JSON input" :=
  validate_parse_failure_wraps sampleRenamingError brokenFileWorld
    (schemaConfig (fileSchema "node" "sd/*.json")) (fileSchema "node" "sd/*.json")
    (fileJob "node" "sd/*.json") "sd/*.json" "sd/a.json" sampleParseError rfl
    (by intro name; simp [featurePresent, fileSchema, emptySchema])
    ⟨[], [], [], [], [], [], [], [], rfl, (fun j hj => by cases hj), rfl, rfl, rfl, rfl,
      (fun c hc => by cases hc), rfl, rfl, rfl, ⟨"content", rfl, Or.inl ⟨by decide, rfl⟩⟩⟩

theorem contains_self (s : String) : contains s s := ⟨[], [], by simp⟩

theorem checkRelabel_names (e : GoError) (jobName : String) (rcs : List RelabelConfig)
    (err : GoError) (h : checkRelabel e jobName rcs = some err) : contains err.msg jobName := by
  induction rcs with
  | nil => cases h
  | cons rc rcs ih =>
    by_cases hr : rc.TargetLabel = "__name__"
    · simp only [checkRelabel, hr, if_true, Option.some.injEq] at h
      rw [← h]
      exact contains_append_left _ _ _ (contains_mid _ _ _)
    · simp only [checkRelabel, hr, if_false] at h
      exact ih h

theorem contains_trans (a b c : String) (hab : contains a b) (hbc : contains b c) :
    contains a c := by
  unfold contains at *
  obtain ⟨s1, t1, h1⟩ := hab
  obtain ⟨s2, t2, h2⟩ := hbc
  refine ⟨s1 ++ s2, t2 ++ t1, ?_⟩
  rw [← h1, ← h2]
  simp [List.append_assoc]

theorem namesQuoted_of_contains (table : Char → Bool) (msg p : String)
    (h : contains msg (quote table p)) : NamesQuoted table msg p :=
  ⟨h, fun hplain => contains_trans _ _ _ h (contains_quote_of_plain table p hplain)⟩

theorem checkFile_isSome (w : World) (fn : String) (err : GoError)
    (h : checkFile w fn = some err) : (checkFile w fn).isSome = true := by
  rw [h]; rfl

theorem checkAuthorization_names (w : World) (sc : ScrapeConfig) (err : GoError)
    (h : checkAuthorization w sc = some err) :
    ∃ a, sc.HTTPClientConfig.Authorization = some a
      ∧ (checkFile w a.CredentialsFile).isSome = true
      ∧ NamesQuoted w.printTable err.msg a.CredentialsFile := by
  unfold checkAuthorization at h
  cases ha : sc.HTTPClientConfig.Authorization with
  | none => simp [ha] at h
  | some a =>
    cases hf : checkFile w a.CredentialsFile with
    | none => simp [ha, hf] at h
    | some ferr =>
      simp only [ha, hf, Option.some.injEq] at h
      rw [← h]
      exact ⟨a, rfl, checkFile_isSome w _ ferr hf,
        namesQuoted_of_contains _ _ _ (contains_append_left _ _ _ (contains_mid _ _ _))⟩

theorem checkTLSConfig_offender (w : World) (tlsConfig : TLSConfig) (err : GoError)
    (h : checkTLSConfig w tlsConfig = some err) :
    ∃ p, tlsOffender w tlsConfig = some p ∧ NamesQuoted w.printTable err.msg p := by
  unfold checkTLSConfig at h
  cases hc : checkFile w tlsConfig.CertFile with
  | some cerr =>
    simp only [hc, Option.some.injEq] at h
    rw [← h]
    exact ⟨tlsConfig.CertFile, by simp [tlsOffender, hc],
      namesQuoted_of_contains _ _ _ (contains_append_left _ _ _ (contains_mid _ _ _))⟩
  | none =>
    cases hk : checkFile w tlsConfig.KeyFile with
    | some kerr =>
      simp only [hc, hk, Option.some.injEq] at h
      rw [← h]
      exact ⟨tlsConfig.KeyFile, by simp [tlsOffender, hc, hk],
        namesQuoted_of_contains _ _ _ (contains_append_left _ _ _ (contains_mid _ _ _))⟩
    | none =>
      simp only [hc, hk] at h
      split at h
      · rename_i hpair
        have hcert : tlsConfig.CertFile ≠ "" := fun hempty => by
          rw [hempty] at hpair
          exact absurd hpair.1 (by decide)
        have hkey : tlsConfig.KeyFile = "" := (string_length_eq_zero _).1 hpair.2
        simp only [Option.some.injEq] at h
        rw [← h]
        exact ⟨tlsConfig.CertFile, by unfold tlsOffender; rw [hc, hk]; simp [hcert, hkey],
          namesQuoted_of_contains _ _ _ (contains_mid _ _ _)⟩
      · rename_i hnotpair
        split at h
        · rename_i hpair
          have hkey : tlsConfig.KeyFile ≠ "" := fun hempty => by
            rw [hempty] at hpair
            exact absurd hpair.1 (by decide)
          have hcert : tlsConfig.CertFile = "" := (string_length_eq_zero _).1 hpair.2
          simp only [Option.some.injEq] at h
          rw [← h]
          exact ⟨tlsConfig.KeyFile, by unfold tlsOffender; rw [hc, hk]; simp [hcert, hkey],
            namesQuoted_of_contains _ _ _ (contains_mid _ _ _)⟩
        · cases h

theorem checkMatches_wraps (w : World) (file : String) (files : List String) (err : GoError)
    (h : checkMatches w file files = some err) :
    ∃ f inner, f ∈ files ∧ checkSDFile w f = some inner ∧ err.wraps inner = true
      ∧ contains err.msg inner.msg := by
  induction files with
  | nil => cases h
  | cons f fs ih =>
    cases hf : checkSDFile w f with
    | some ferr =>
      simp only [checkMatches, hf, Option.some.injEq] at h
      rw [← h]
      exact ⟨f, ferr, List.mem_cons_self _ _, hf, by simp [GoError.wraps, wraps_self],
        contains_append_right _ _ _ (contains_self _)⟩
    | none =>
      simp only [checkMatches, hf] at h
      obtain ⟨g, inner, hg, hrest⟩ := ih h
      exact ⟨g, inner, List.mem_cons_of_mem _ hg, hrest⟩

theorem checkPatterns_names (w : World) (jobName : String) (files : List String)
    (err : GoError) (h : checkPatterns w jobName files = some err) :
    ∃ pattern ∈ files, PatternErrorNames w jobName pattern err := by
  induction files with
  | nil => cases h
  | cons file rest ih =>
    cases hg : w.glob file with
    | error gerr =>
      simp only [checkPatterns, hg, Option.some.injEq] at h
      exact ⟨file, List.mem_cons_self _ _, Or.inr (Or.inl (by rw [hg, h]))⟩
    | ok found =>
      by_cases hlen : found.length ≠ 0
      · cases hm : checkMatches w file found with
        | some merr =>
          simp only [checkPatterns, hg, if_pos hlen, hm, Option.some.injEq] at h
          obtain ⟨f, inner, hf, hinner, hwraps, hmsg⟩ := checkMatches_wraps w file found merr hm
          rw [← h]
          exact ⟨file, List.mem_cons_self _ _,
            Or.inr (Or.inr ⟨found, f, inner, hg, hf, hinner, hwraps, hmsg⟩)⟩
        | none =>
          simp only [checkPatterns, hg, if_pos hlen, hm] at h
          obtain ⟨pattern, hp, hnames⟩ := ih h
          exact ⟨pattern, List.mem_cons_of_mem _ hp, hnames⟩
      · simp only [checkPatterns, hg, if_neg hlen, Option.some.injEq] at h
        have hnil : found = [] := by
          cases found with
          | nil => rfl
          | cons x xs => exact absurd (by simp) hlen
        rw [← h]
        refine ⟨file, List.mem_cons_self _ _, Or.inl ⟨by rw [hg, hnil], ?_, ?_⟩⟩
        · exact namesQuoted_of_contains _ _ _ (contains_append_left _ _ _
            (contains_append_left _ _ _ (contains_append_left _ _ _
              (contains_append_right _ _ _ (contains_self _)))))
        · exact namesQuoted_of_contains _ _ _
            (contains_append_left _ _ _ (contains_append_right _ _ _ (contains_self _)))

theorem checkSDConfigs_some (w : World) (jobName : String) (cs : List SDConfig)
    (err : GoError) (h : checkSDConfigs w jobName cs = some err) :
    ∃ c ∈ cs, checkSDConfig w jobName c = some err := by
  induction cs with
  | nil => cases h
  | cons c cs ih =>
    cases hc : checkSDConfig w jobName c with
    | some cerr =>
      simp only [checkSDConfigs, hc, Option.some.injEq] at h
      exact ⟨c, List.mem_cons_self _ _, by rw [hc, h]⟩
    | none =>
      simp only [checkSDConfigs, hc] at h
      obtain ⟨d, hd, hderr⟩ := ih h
      exact ⟨d, List.mem_cons_of_mem _ hd, hderr⟩

/-- What the error of the checks of one job names, by the check that failed. -/
theorem checkScrapeConfig_names (e : GoError) (w : World) (sc : ScrapeConfig) (err : GoError)
    (h : checkScrapeConfig e w sc = some err) : JobErrorNames e w sc err := by
  unfold checkScrapeConfig at h
  cases hrel : checkRelabel e sc.JobName sc.MetricRelabelConfigs with
  | some rerr =>
    simp only [hrel, Option.some.injEq] at h
    rw [← h]
    exact Or.inl ⟨hrel, checkRelabel_names e sc.JobName _ rerr hrel⟩
  | none =>
    cases hauth : checkAuthorization w sc with
    | some aerr =>
      simp only [hrel, hauth, Option.some.injEq] at h
      obtain ⟨a, ha, hmissing, hnames⟩ := checkAuthorization_names w sc aerr hauth
      rw [← h]
      exact Or.inr (Or.inl ⟨a, ha, hauth, hmissing, hnames⟩)
    | none =>
      cases htls : checkTLSConfig w sc.HTTPClientConfig.TLSConfig with
      | some terr =>
        simp only [hrel, hauth, htls, Option.some.injEq] at h
        obtain ⟨p, hp, hnames⟩ := checkTLSConfig_offender w _ terr htls
        rw [← h]
        exact Or.inr (Or.inr (Or.inl ⟨_, p, Or.inl rfl, htls, hp, hnames⟩))
      | none =>
        simp only [hrel, hauth, htls] at h
        obtain ⟨c, hc, hcerr⟩ := checkSDConfigs_some w sc.JobName _ err h
        cases c with
        | kubernetes httpClientConfig =>
          obtain ⟨p, hp, hnames⟩ := checkTLSConfig_offender w _ err hcerr
          exact Or.inr (Or.inr (Or.inl
            ⟨_, p, Or.inr ⟨httpClientConfig, hc, rfl⟩, hcerr, hp, hnames⟩))
        | file files =>
          obtain ⟨pattern, hpattern, hnames⟩ := checkPatterns_names w sc.JobName files err hcerr
          exact Or.inr (Or.inr (Or.inr ⟨files, pattern, hc, hpattern, hnames⟩))
        | static targets => cases hcerr
        | http url => cases hcerr

theorem checkScrapeConfigs_first (e : GoError) (w : World) (scs : List ScrapeConfig)
    (err : GoError) (h : checkScrapeConfigs e w scs = some err) :
    ∃ pre sc post, scs = pre ++ sc :: post ∧ (∀ j ∈ pre, checkScrapeConfig e w j = none)
      ∧ checkScrapeConfig e w sc = some err := by
  induction scs with
  | nil => cases h
  | cons sc scs ih =>
    cases hsc : checkScrapeConfig e w sc with
    | some serr =>
      simp only [checkScrapeConfigs, hsc, Option.some.injEq] at h
      exact ⟨[], sc, scs, rfl, (fun j hj => by cases hj), (by rw [hsc, h])⟩
    | none =>
      simp only [checkScrapeConfigs, hsc] at h
      obtain ⟨pre, j, post, hsplit, hpre, hjerr⟩ := ih h
      refine ⟨sc :: pre, j, post, by rw [hsplit]; rfl, ?_, hjerr⟩
      intro k hk
      rcases List.mem_cons.mp hk with heq | hin
      · rw [heq]; exact hsc
      · exact hpre k hin

theorem validateTargetAllocatorConfig_names (w : World) (cfg : Config) (err : GoError)
    (h : validateTargetAllocatorConfig w cfg = some err) :
    ∃ ta, cfg.TargetAllocator = some ta ∧ AllocatorErrorNames w ta err := by
  unfold validateTargetAllocatorConfig at h
  cases hta : cfg.TargetAllocator with
  | none => simp [hta] at h
  | some ta =>
    cases hp : parseRequestURI w.printTable ta.Endpoint with
    | some perr =>
      simp only [hta, hp, Option.some.injEq] at h
      rw [← h]
      exact ⟨ta, rfl, Or.inl ⟨by rw [hp]; rfl, contains_append_right _ _ _ (contains_self _)⟩⟩
    | none =>
      simp only [hta, hp] at h
      split at h
      · rename_i hid
        simp only [Option.some.injEq] at h
        exact ⟨ta, rfl, Or.inr ⟨hp, hid, h.symm⟩⟩
      · cases h

set_option maxRecDepth 4096 in
/-- C15, as stated, fails, in four ways. The collector ID error is a fixed message that names
no job, no file path and not the endpoint. The error of a malformed pattern is the one
`filepath.Glob` returned and names nothing either. A file path is printed with `%q`, so a
certificate path holding double quotes does not appear as it is. And the error for a
matched file that does not parse holds neither the name of the job nor that of the file. -/
theorem unnamed_offender_counterexample :
    (¬ ∀ (e : GoError) (w : World) (cfg : Config) (err : GoError),
      Validate e w cfg = some err → presenceCheck cfg = none → featureCheck cfg = none →
      NamesOffender w cfg err.msg)
    ∧ (∃ err, Validate sampleRenamingError badPatternWorld
          (schemaConfig (fileSchema "node" "sd/[.json")) = some err
        ∧ ¬ NamesOffender badPatternWorld (schemaConfig (fileSchema "node" "sd/[.json"))
            err.msg)
    ∧ (∃ err, Validate sampleRenamingError fullWorld (schemaConfig quotedCertSchema) = some err
        ∧ ¬ NamesOffender fullWorld (schemaConfig quotedCertSchema) err.msg)
    ∧ (∃ err, Validate sampleRenamingError brokenFileWorld
          (schemaConfig (fileSchema "node" "sd/*.json")) = some err
        ∧ ¬ contains err.msg "node" ∧ ¬ contains err.msg "sd/a.json") := by
  refine ⟨?_, ?_, ?_, ?_⟩
  · intro h
    have h1 := h sampleRenamingError emptyWorld
      (allocatorConfig (sampleAllocator "http://localhost:8080" ""))
      (.new "CollectorID is not a valid ID") (by decide) (by decide) (by decide)
    exact absurd h1 (by decide)
  · exact ⟨.new "syntax error in pattern", by decide, by decide⟩
  · exact ⟨.new ("client cert file \"/etc/\\\"tls\\\".pem\" specified without client key "
      ++ "file"), by decide, by decide⟩
  · exact ⟨.wrap ("checking SD file \"sd/*.json\": error in unmarshaling json file "
        ++ "extension: unexpected end of JSON input")
      (.wrap "error in unmarshaling json file extension: unexpected end of JSON input"
        sampleParseError), by decide, by decide, by decide⟩

/-- C15, amended: when `Validate` fails in a per-job check, the error is that of the first
failing job and its message contains, by the check that failed: the name of the job as it is
(relabel check); the quoted form (`%q`, with the path as it is when all its characters are
printable and none is a double quote or a backslash) of the offending file path, which is
the credentials file, or the client certificate or key that is missing or supplied without
the other (credentials check, TLS check of the job or of a Kubernetes discovery block); the
pattern and the job name, quoted in the same way (pattern matching no file). Two failures
name none of
these: a malformed pattern, whose error is the one `filepath.Glob` returned, and a matched
file that fails its check, whose error wraps that of `checkSDFile` and repeats its message.
When `Validate` fails in a target allocator check, the message contains the endpoint as it
is if the endpoint is rejected, and the error is the fixed `CollectorID is not a valid ID`
if the collector ID is. -/
theorem validate_error_names (e : GoError) (w : World) (cfg : Config) (err : GoError)
    (h : Validate e w cfg = some err)
    (hpresence : presenceCheck cfg = none) (hfeature : featureCheck cfg = none) :
    (∃ pre sc post, scrapeJobs cfg = pre ++ sc :: post
        ∧ (∀ j ∈ pre, checkScrapeConfig e w j = none)
        ∧ checkScrapeConfig e w sc = some err ∧ JobErrorNames e w sc err)
      ∨ (∃ ta, cfg.TargetAllocator = some ta
          ∧ (∀ j ∈ scrapeJobs cfg, checkScrapeConfig e w j = none)
          ∧ AllocatorErrorNames w ta err) := by
  cases hpc : cfg.PrometheusConfig with
  | none =>
    rw [validate_of_schema_pass e w cfg (fun pc hsome => by rw [hpc] at hsome; cases hsome)] at h
    obtain ⟨ta, hta, hnames⟩ := validateTargetAllocatorConfig_names w cfg err h
    have hjobs : scrapeJobs cfg = [] := by simp [scrapeJobs, hpc]
    exact Or.inr ⟨ta, hta, (by rw [hjobs]; intro j hj; cases hj), hnames⟩
  | some pc =>
    have hjobs : scrapeJobs cfg = pc.ScrapeConfigs := by simp [scrapeJobs, hpc]
    have hP : ¬ (pc.ScrapeConfigs = [] ∧ cfg.TargetAllocator = none) := by
      intro hcond
      rw [← hjobs] at hcond
      simp [presenceCheck, hcond] at hpresence
    have hF : unsupportedFeatures pc = [] := by
      apply (filter_featurePresent_eq_nil pc).1
      by_contra hne
      simp [featureCheck, hpc, hne] at hfeature
    rw [validate_schema e w cfg pc hpc, if_neg hP, if_neg (by simp [hF])] at h
    cases hloop : checkScrapeConfigs e w pc.ScrapeConfigs with
    | some jerr =>
      simp only [hloop, Option.some.injEq] at h
      rw [h] at hloop
      obtain ⟨pre, sc, post, hsplit, hpre, hscerr⟩ :=
        checkScrapeConfigs_first e w pc.ScrapeConfigs err hloop
      exact Or.inl ⟨pre, sc, post, by rw [hjobs]; exact hsplit, hpre, hscerr,
        checkScrapeConfig_names e w sc err hscerr⟩
    | none =>
      simp only [hloop] at h
      obtain ⟨ta, hta, hnames⟩ := validateTargetAllocatorConfig_names w cfg err h
      refine Or.inr ⟨ta, hta, ?_, hnames⟩
      rw [hjobs]
      intro j hj
      by_contra hne
      have hsome : (checkScrapeConfigs e w pc.ScrapeConfigs).isSome = true :=
        checkScrapeConfigs_isSome e w pc.ScrapeConfigs
          ⟨j, hj, by cases hjc : checkScrapeConfig e w j with
            | none => exact absurd hjc hne
            | some x => rfl⟩
      rw [hloop] at hsome
      cases hsome

/-- C15 at the job `node` whose pattern `sd/*.json` matches no file, and at a target
allocator with a valid endpoint and no collector ID. -/
theorem validate_error_names_witness :
    ((∃ pre sc post,
        scrapeJobs (schemaConfig (fileSchema "node" "sd/*.json")) = pre ++ sc :: post
        ∧ (∀ j ∈ pre, checkScrapeConfig sampleRenamingError emptyWorld j = none)
        ∧ checkScrapeConfig sampleRenamingError emptyWorld sc = some noMatchError
        ∧ JobErrorNames sampleRenamingError emptyWorld sc noMatchError)
      ∨ (∃ ta, (schemaConfig (fileSchema "node" "sd/*.json")).TargetAllocator = some ta
          ∧ (∀ j ∈ scrapeJobs (schemaConfig (fileSchema "node" "sd/*.json")),
              checkScrapeConfig sampleRenamingError emptyWorld j = none)
          ∧ AllocatorErrorNames emptyWorld ta noMatchError))
    ∧ ((∃ pre sc post,
        scrapeJobs (allocatorConfig (sampleAllocator "http://localhost:8080" ""))
          = pre ++ sc :: post
        ∧ (∀ j ∈ pre, checkScrapeConfig sampleRenamingError emptyWorld j = none)
        ∧ checkScrapeConfig sampleRenamingError emptyWorld sc
            = some (.new "CollectorID is not a valid ID")
        ∧ JobErrorNames sampleRenamingError emptyWorld sc
            (.new "CollectorID is not a valid ID"))
      ∨ (∃ ta, (allocatorConfig (sampleAllocator "http://localhost:8080" "")).TargetAllocator
            = some ta
          ∧ (∀ j ∈ scrapeJobs (allocatorConfig (sampleAllocator "http://localhost:8080" "")),
              checkScrapeConfig sampleRenamingError emptyWorld j = none)
          ∧ AllocatorErrorNames emptyWorld ta (.new "CollectorID is not a valid ID"))) :=
  ⟨validate_error_names sampleRenamingError emptyWorld
      (schemaConfig (fileSchema "node" "sd/*.json")) noMatchError
      (by decide) (by decide) (by decide),
   validate_error_names sampleRenamingError emptyWorld
      (allocatorConfig (sampleAllocator "http://localhost:8080" ""))
      (.new "CollectorID is not a valid ID") (by decide) (by decide) (by decide)⟩

end Prometheusreceiver
